import Mathlib

/-!
Verification of the reconciliation engine of analyze_copilot_data.py.

The Python source operates on strings (slash-delimited surface strings,
ISO timestamps, CSV cells).  We embed it shallowly: strings become Lean
Strings, character-level operations are defined on List Char, Python
dictionaries become association lists or functions with pointwise update,
Python sets become duplicate-free insertion into lists (membership is
what matters), and fallible parsing (ValueError paths) returns Option.
Python .lower() is modelled on the ASCII range, which covers every string
the tables and comparisons in the source mention.
-/

set_option maxRecDepth 4000

/-- Generic association-list lookup; models Python dict .get for the fixed
configuration tables of the script (first binding wins; the tables have
distinct keys). -/
def assocLookup {α β : Type} [DecidableEq α] (k : α) : List (α × β) → Option β
  | [] => none
  | (a, b) :: rest => if k = a then some b else assocLookup k rest

/-- ASCII lower-case map, modelling Python str.lower on the ASCII range. -/
def LOWER_MAP : List (Char × Char) :=
  [('A','a'), ('B','b'), ('C','c'), ('D','d'), ('E','e'), ('F','f'), ('G','g'),
   ('H','h'), ('I','i'), ('J','j'), ('K','k'), ('L','l'), ('M','m'), ('N','n'),
   ('O','o'), ('P','p'), ('Q','q'), ('R','r'), ('S','s'), ('T','t'), ('U','u'),
   ('V','v'), ('W','w'), ('X','x'), ('Y','y'), ('Z','z')]

def lowerChar (c : Char) : Char := (assocLookup c LOWER_MAP).getD c

def lowerList (l : List Char) : List Char := l.map lowerChar

def lowerStr (s : String) : String := String.mk (lowerList s.data)

/-- Splitting a character list at every occurrence of a separator character,
modelling Python str.split with a one-character separator (an empty input
gives one empty chunk, like Python). -/
def splitOnCharAux (c : Char) : List Char → List Char → List (List Char)
  | [], acc => [acc.reverse]
  | x :: xs, acc =>
    if x = c then acc.reverse :: splitOnCharAux c xs []
    else splitOnCharAux c xs (x :: acc)

def splitOnChar (c : Char) (l : List Char) : List (List Char) := splitOnCharAux c l []

/-- Joining with a separator character, modelling Python sep.join. -/
def joinWith (c : Char) : List (List Char) → List Char
  | [] => []
  | [x] => x
  | x :: xs => x ++ c :: joinWith c xs

/-- Python s.split of a string on a one-character separator, as Strings. -/
def splitStr (c : Char) (s : String) : List String :=
  (splitOnChar c s.data).map String.mk

/-- Python s.startswith(pat). -/
def listStartsWith : List Char → List Char → Bool
  | [], _ => true
  | _ :: _, [] => false
  | p :: ps, x :: xs => p = x && listStartsWith ps xs

def strStartsWith (s pat : String) : Bool := listStartsWith pat.data s.data

/-- Python substring containment (needle in haystack). -/
def containsSub (needle : List Char) : List Char → Bool
  | [] => needle = []
  | x :: xs => listStartsWith needle (x :: xs) || containsSub needle xs

def strContainsSub (hay needle : String) : Bool :=
  needle = "" || containsSub needle.data hay.data

/-- Python lexicographic comparison of strings (by code point). -/
def listLtChar : List Char → List Char → Bool
  | [], [] => false
  | [], _ :: _ => true
  | _ :: _, [] => false
  | a :: as, b :: bs => if a < b then true else if b < a then false else listLtChar as bs

def strLtB (s t : String) : Bool := listLtChar s.data t.data

/-- Python min of two strings (ties keep the first argument). -/
def strMin (x y : String) : String := if strLtB y x then y else x

/-- Python max over a list of strings, with an empty default, modelling
the idiom max(xs) if xs else '' (strings are totally ordered so the
iteration order of the underlying set does not matter). -/
def strMaxList (l : List String) : String :=
  l.foldl (fun a b => if strLtB a b then b else a) ""

/-- Python s[:n]. -/
def strTake (s : String) (n : Nat) : String := String.mk (s.data.take n)

/-- Python s.rstrip of a single character: drop every trailing occurrence. -/
def rstripChar (c : Char) (l : List Char) : List Char :=
  ((l.reverse.dropWhile (fun x => x = c))).reverse

def digitsToNat (l : List Char) : Nat :=
  l.foldl (fun n c => n * 10 + (c.toNat - 48)) 0

/-- Fuel-based decimal rendering of a Nat (kernel-reducible). -/
def natDigitsAux : Nat → Nat → List Char
  | 0, _ => []
  | _ + 1, n =>
    if n = 0 then []
    else natDigitsAux n (n / 10) ++ [Char.ofNat (48 + n % 10)]

def natToStr (n : Nat) : String :=
  if n = 0 then "0" else String.mk (natDigitsAux (n + 1) n)

/-- Zero-padded decimal rendering, modelling strftime %Y / %m / %d fields. -/
def padNat (k : Nat) (n : Nat) : String :=
  let s := natToStr n
  String.mk (List.replicate (k - s.data.length) '0') ++ s

/-! ## Calendar arithmetic

Python datetime uses the proleptic Gregorian calendar.  rataDie maps a
valid civil date (year at least 1) to a day count, and civilFromDays is
its inverse; differences of datetimes in the source are differences of
these counts.  The formulas are the standard era-based ones, written over
Nat (all intermediate quantities are nonnegative for year at least 1). -/

def isLeap (y : Nat) : Bool := y % 4 = 0 && (y % 100 ≠ 0 || y % 400 = 0)

def daysInMonth (y m : Nat) : Nat :=
  if m = 1 || m = 3 || m = 5 || m = 7 || m = 8 || m = 10 || m = 12 then 31
  else if m = 4 || m = 6 || m = 9 || m = 11 then 30
  else if isLeap y then 29 else 28

def rataDie (y m d : Nat) : Nat :=
  let y2 := if m ≤ 2 then y - 1 else y
  let era := y2 / 400
  let yoe := y2 % 400
  let mp := if 2 < m then m - 3 else m + 9
  let doy := (153 * mp + 2) / 5 + d - 1
  let doe := yoe * 365 + yoe / 4 - yoe / 100 + doy
  era * 146097 + doe

def civilFromDays (z : Nat) : Nat × Nat × Nat :=
  let era := z / 146097
  let doe := z % 146097
  let yoe := (doe - doe / 1460 + doe / 36524 - doe / 146096) / 365
  let y2 := yoe + era * 400
  let doy := doe - (365 * yoe + yoe / 4 - yoe / 100)
  let mp := (5 * doy + 2) / 153
  let d := doy - (153 * mp + 2) / 5 + 1
  let m := if mp < 10 then mp + 3 else mp - 9
  (if m ≤ 2 then y2 + 1 else y2, m, d)

/-- strftime of a date as YYYY-MM-DD. -/
def formatDate (ymd : Nat × Nat × Nat) : String :=
  padNat 4 ymd.1 ++ "-" ++ padNat 2 ymd.2.1 ++ "-" ++ padNat 2 ymd.2.2

/-- datetime.strptime with format %Y-%m-%d: three dash-separated digit
groups of bounded width, validated as a real proleptic-Gregorian date
(Python raises ValueError otherwise; we return none). -/
def parseDateList (l : List Char) : Option (Nat × Nat × Nat) :=
  match splitOnChar '-' l with
  | [ys, ms, ds] =>
    if ys.all Char.isDigit && ms.all Char.isDigit && ds.all Char.isDigit &&
       decide (1 ≤ ys.length) && decide (ys.length ≤ 4) &&
       decide (1 ≤ ms.length) && decide (ms.length ≤ 2) &&
       decide (1 ≤ ds.length) && decide (ds.length ≤ 2) then
      let y := digitsToNat ys
      let m := digitsToNat ms
      let d := digitsToNat ds
      if decide (1 ≤ y) && decide (1 ≤ m) && decide (m ≤ 12) &&
         decide (1 ≤ d) && decide (d ≤ daysInMonth y m) then
        some (y, m, d)
      else none
    else none
  | _ => none

def parseDate (s : String) : Option (Nat × Nat × Nat) := parseDateList s.data

/-- Day number of a YYYY-MM-DD string (ValueError modelled as none). -/
def parseDateDays (s : String) : Option Nat :=
  (parseDate s).map (fun ymd => rataDie ymd.1 ymd.2.1 ymd.2.2)

/-- Time-of-day part of strptime format %H:%M:%S. -/
def parseTimeList (l : List Char) : Option Nat :=
  match splitOnChar ':' l with
  | [hs, ms, ss] =>
    if hs.all Char.isDigit && ms.all Char.isDigit && ss.all Char.isDigit &&
       decide (1 ≤ hs.length) && decide (hs.length ≤ 2) &&
       decide (1 ≤ ms.length) && decide (ms.length ≤ 2) &&
       decide (1 ≤ ss.length) && decide (ss.length ≤ 2) then
      let h := digitsToNat hs
      let mi := digitsToNat ms
      let s := digitsToNat ss
      if decide (h ≤ 23) && decide (mi ≤ 59) && decide (s ≤ 59) then
        some (h * 3600 + mi * 60 + s)
      else none
    else none
  | _ => none

/-- Seconds-since-epoch of a timestamp as used in find_closest_timestamp:
the source strips trailing Z characters with rstrip and then parses with
strptime format %Y-%m-%dT%H:%M:%S; differences of the resulting datetimes
equal differences of these second counts. -/
def parseTsSecs (s : String) : Option Nat :=
  match splitOnChar 'T' (rstripChar 'Z' s.data) with
  | [dpart, tpart] =>
    match parseDateList dpart, parseTimeList tpart with
    | some ymd, some secs => some (rataDie ymd.1 ymd.2.1 ymd.2.2 * 86400 + secs)
    | _, _ => none
  | _ => none

/-! ## normalize_timestamp (source lines 221-228) -/

/-- Normalize a timestamp by removing milliseconds; a falsy (empty) input
gives Python None, modelled as none. -/
def normalize_timestamp (ts : String) : Option String :=
  if ts = "" then none
  else if ts.data.contains '.' then
    some (String.mk (ts.data.takeWhile (fun c => c ≠ '.') ++ ['Z']))
  else some ts

/-! ## parse_version (source lines 132-141)

The source matches the regex (digits)(.digits)?(.digits)? at the start of
the string and keeps the matched numeric groups; trailing text is ignored.
A string not starting with a digit (or empty) gives None. -/

def takeDigits (l : List Char) : List Char × List Char :=
  (l.takeWhile Char.isDigit, l.dropWhile Char.isDigit)

def parse_version (version_str : String) : Option (List Nat) :=
  if version_str = "" then none
  else
    match takeDigits version_str.data with
    | ([], _) => none
    | (d1, rest1) =>
      match rest1 with
      | '.' :: r2 =>
        match takeDigits r2 with
        | ([], _) => some [digitsToNat d1]
        | (d2, rest2) =>
          match rest2 with
          | '.' :: r3 =>
            match takeDigits r3 with
            | ([], _) => some [digitsToNat d1, digitsToNat d2]
            | (d3, _) => some [digitsToNat d1, digitsToNat d2, digitsToNat d3]
          | _ => some [digitsToNat d1, digitsToNat d2]
      | _ => some [digitsToNat d1]

/-! ## Version floors (source lines 94-118) -/

/-- One entry of MIN_VERSIONS: the per-family minimum version floors.
Keys absent from the Python dict are none. -/
structure MinVer where
  ide : Option (List Nat)
  ide_build : Option Nat
  extension : Option (List Nat)
deriving DecidableEq

def MIN_VERSIONS : List (String × MinVer) :=
  [("vscode", ⟨some [1, 101], none, some [0, 28, 0]⟩),
   ("visualstudio", ⟨some [17, 14, 13], none, some [18, 0, 471]⟩),
   ("jetbrains", ⟨none, some 242, some [1, 5, 52]⟩),
   ("eclipse", ⟨some [4, 31], none, some [0, 9, 3]⟩),
   ("xcode", ⟨some [13, 2, 1], none, some [0, 40, 0]⟩)]

/-- Python tuple comparison a < b (lexicographic; a shorter tuple that is
a proper prefix is smaller). -/
def tupleLt : List Nat → List Nat → Bool
  | [], [] => false
  | [], _ :: _ => true
  | _ :: _, [] => false
  | a :: as, b :: bs => if a < b then true else if b < a then false else tupleLt as bs

/-- Right-pad a version tuple with zeros to length k, modelling
v + (0,) * (k - len(v)) (a nonpositive repeat count adds nothing). -/
def padTo (v : List Nat) (k : Nat) : List Nat := v ++ List.replicate (k - v.length) 0

/-! ## is_version_supported (source lines 144-218) -/

def verJoin : List Nat → String
  | [] => ""
  | [n] => natToStr n
  | n :: rest => natToStr n ++ "." ++ verJoin rest

/-- The elif condition selecting the JetBrains regime (source line 164). -/
def isJetbrainsFamily (ide_name : String) : Bool :=
  strStartsWith ide_name "jetbrains-" || ide_name = "eclipse ide" || ide_name = "eclipse"

/-- The standard (non-build-number) IDE check plus the extension check,
source lines 195-218.  Returns the final (is_supported, reason) pair for
the non-JetBrains regimes; the JetBrains regime reuses only the extension
part.  The source computes min_padded but never uses it, so it is omitted. -/
def extCheck (mv : MinVer) (ext_version_str : String) : Bool × Option String :=
  if ext_version_str ≠ "" then
    match parse_version ext_version_str, mv.extension with
    | some ext_version, some min_ext =>
      if min_ext ≠ [] then
        if tupleLt ((padTo ext_version min_ext.length).take min_ext.length) min_ext then
          (false, some ("Extension version " ++ ext_version_str ++ " < minimum " ++ verJoin min_ext))
        else (true, none)
      else (true, none)
    | _, _ => (true, none)
  else (true, none)

def ideStandardCheck (mv : MinVer) (ide_version : List Nat) (ide_version_str ext_version_str : String) :
    Bool × Option String :=
  match mv.ide with
  | some min_ide =>
    if min_ide ≠ [] then
      if tupleLt ((padTo ide_version min_ide.length).take min_ide.length) min_ide then
        (false, some ("IDE version " ++ ide_version_str ++ " < minimum " ++ verJoin min_ide))
      else extCheck mv ext_version_str
    else extCheck mv ext_version_str
  | none => extCheck mv ext_version_str

def ideJetbrainsCheck (mv : MinVer) (ide_version : List Nat) (ide_version_str ext_version_str : String) :
    Bool × Option String :=
  match mv.ide_build with
  | some min_build =>
    if min_build ≠ 0 then
      if ide_version.headD 0 < min_build then
        (false, some ("IDE build " ++ ide_version_str ++ " < minimum build " ++ natToStr min_build ++ ".x"))
      else extCheck mv ext_version_str
    else extCheck mv ext_version_str
  | none => extCheck mv ext_version_str

/-- The if/elif chain selecting the minimum-version set (source lines
161-175): the looked-up MinVer plus whether the JetBrains build-number
regime applies; none means an unknown IDE (assumed supported). -/
def regimeOf (ide_name : String) : Option (Option MinVer × Bool) :=
  if ide_name = "vscode" || ide_name = "vscode-chat" then
    some (assocLookup "vscode" MIN_VERSIONS, false)
  else if isJetbrainsFamily ide_name then
    some (assocLookup "jetbrains" MIN_VERSIONS, true)
  else if ide_name = "visualstudio" || ide_name = "vs" then
    some (assocLookup "visualstudio" MIN_VERSIONS, false)
  else if ide_name = "xcode" then
    some (assocLookup "xcode" MIN_VERSIONS, false)
  else none

/-- ext_version_str: parts[3] if present else the empty string. -/
def extVersionStrOf (parts : List String) : String :=
  if 3 < parts.length then parts.getD 3 "" else ""

/-- Check of the selected regime against the parsed parts (source lines
149-218, after the surface has been split). -/
def is_version_supported_parts (parts : List String) : Bool × Option String :=
  if parts.length < 2 then (false, some "Invalid surface format")
  else
    match regimeOf (lowerStr (parts.getD 0 "")) with
    | none => (true, none)
    | some (none, _) => (true, none)
    | some (some mv, jetbrains) =>
      match parse_version (parts.getD 1 "") with
      | none => (false, some ("Cannot parse IDE version: " ++ parts.getD 1 ""))
      | some ide_version =>
        if jetbrains then
          ideJetbrainsCheck mv ide_version (parts.getD 1 "") (extVersionStrOf parts)
        else ideStandardCheck mv ide_version (parts.getD 1 "") (extVersionStrOf parts)

/-- Check if IDE and extension version meet the minimum requirements,
source lines 144-218; returns (is_supported, reason). -/
def is_version_supported (surface_str : String) : Bool × Option String :=
  if surface_str = "" then (false, some "No surface info")
  else is_version_supported_parts (splitStr '/' surface_str)

/-! ## find_closest_timestamp (source lines 231-263) -/

/-- One step of the linear scan: an unparseable timestamp is skipped
(the inner except ValueError: continue); a strictly smaller absolute
difference replaces the tracked minimum. -/
def fcStep (r : Nat) (acc : Option String × Option Int) (ts : String) :
    Option String × Option Int :=
  match parseTsSecs ts with
  | none => acc
  | some s =>
    let diff : Int := |(s : Int) - (r : Int)|
    match acc with
    | (_, none) => (some ts, some diff)
    | (c, some m) => if diff < m then (some ts, some diff) else (c, some m)

/-- Find the closest JSON timestamp to the report timestamp; returns
(closest_ts, within_tolerance, time_diff), source lines 231-263. -/
def find_closest_timestamp (report_ts : String) (json_timestamps : List String)
    (tolerance_hours : Nat) : Option String × Bool × Option Int :=
  if report_ts = "" || json_timestamps.isEmpty then (none, false, none)
  else
    match parseTsSecs report_ts with
    | none => (none, false, none)
    | some r =>
      match json_timestamps.foldl (fcStep r) (none, none) with
      | (some c, some m) => (some c, decide (m ≤ (tolerance_hours : Int) * 3600), some m)
      | _ => (none, false, none)

/-! ## normalize_surface_to_json_format (source lines 266-296) -/

/-- The regex 0\.(one or two digits)\.(digits), anchored at both ends
(VSCODE_VERSION_PATTERN, source line 71).  The leading digit run after
"0." must itself be 1-2 digits long, which matches the greedy regex with
backtracking. -/
def vscodeVersionPattern (l : List Char) : Bool :=
  match l with
  | '0' :: '.' :: rest =>
    let ds := rest.takeWhile Char.isDigit
    let rest2 := rest.dropWhile Char.isDigit
    decide (1 ≤ ds.length) && decide (ds.length ≤ 2) &&
    (match rest2 with
     | '.' :: ds2 => !ds2.isEmpty && ds2.all Char.isDigit
     | _ => false)
  | _ => false

/-- SURFACE_TO_JSON_IDE (source lines 40-68), keys and values as
character lists. -/
def SURFACE_TO_JSON_IDE : List (List Char × List Char) :=
  [("vscode".data, "vscode".data),
   ("vscode-chat".data, "vscode".data),
   ("jetbrains-iu".data, "intellij".data),
   ("jetbrains-ic".data, "intellij".data),
   ("jetbrains-py".data, "intellij".data),
   ("jetbrains-pc".data, "intellij".data),
   ("jetbrains-cl".data, "intellij".data),
   ("jetbrains-go".data, "intellij".data),
   ("jetbrains-rm".data, "intellij".data),
   ("jetbrains-ws".data, "intellij".data),
   ("jetbrains-rd".data, "intellij".data),
   ("jetbrains-ps".data, "intellij".data),
   ("jetbrains-db".data, "intellij".data),
   ("jetbrains-jbc".data, "intellij".data),
   ("jetbrains-ai".data, "intellij".data),
   ("jetbrains-equivalent-eclipse ide".data, "intellij".data),
   ("jetbrains-equivalent-ibm developer for z".data, "intellij".data),
   ("eclipse ide".data, "intellij".data),
   ("eclipse".data, "intellij".data),
   ("ibm developer for z".data, "intellij".data),
   ("visualstudio".data, "visualstudio".data),
   ("vs".data, "visualstudio".data),
   ("neovim".data, "neovim".data),
   ("vim".data, "vim".data),
   ("emacs".data, "emacs".data),
   ("xcode".data, "xcode".data),
   ("unknown".data, "unknown".data)]

/-- The filter dropping intermediate GitHubCopilotChat / GitHubCopilot
segments (source lines 291-294): keep a part iff its lower-case form is
neither marker. -/
def keepPart (p : List Char) : Bool :=
  !(lowerList p = "githubcopilotchat".data || lowerList p = "githubcopilot".data)

/-- Core of normalize_surface_to_json_format on a nonempty character
list (the split of a nonempty string is never the empty list, so the
source guard if not parts is unreachable). -/
def normalizeCore (l : List Char) : List Char :=
  let parts := splitOnChar '/' l
  let surface0 := lowerList (parts.headD [])
  let surface :=
    if (parts.drop 1).any vscodeVersionPattern then "vscode".data else surface0
  let json_ide := (assocLookup surface SURFACE_TO_JSON_IDE).getD surface
  let kept := (parts.drop 1).filter keepPart
  joinWith '/' (json_ide :: kept)

/-- Convert an activity report surface string to JSON format, source
lines 266-296.  A falsy (empty) input gives Python None. -/
def normalize_surface_to_json_format (last_surface : String) : Option String :=
  if last_surface = "" then none
  else some (String.mk (normalizeCore last_surface.data))

/-! ## parse_json_files (source lines 299-430)

File discovery, NDJSON line splitting and json.loads are I/O concerns
outside the reconciliation core; the embedding starts from the list of
successfully decoded JSON records (malformed lines are skipped by the
source, so they simply do not appear in the list).  Missing JSON fields
default to empty strings / zero exactly as record.get does. -/

structure IdeInfo where
  ide : String
  ide_version : String
  sampled_at : String
  plugin : String
  plugin_version : String
  plugin_sampled_at : String
deriving DecidableEq

structure TelemetryRecord where
  report_start_day : String
  report_end_day : String
  day : String
  user_login : String
  interaction_count : Nat
  totals_by_ide : List IdeInfo
deriving DecidableEq

/-- One distilled output row (the dict appended to rows). -/
structure DistilledRow where
  report_start_day : String
  report_end_day : String
  day : String
  user_login : String
  ide : String
  ide_version : String
  plugin : String
  plugin_version : String
deriving DecidableEq

/-- Per-user accumulator: the set of normalized timestamps and the
timestamp-to-IDE-string dict (last write wins, as in Python). -/
structure UserAccum where
  timestamps : List String
  timestamp_to_ide : String → Option String

structure JsonState where
  rows : List DistilledRow
  user_timestamps : String → Option UserAccum
  user_interactions : String → Nat
  report_start : Option String
  report_end : Option String

def initJsonState : JsonState := ⟨[], fun _ => none, fun _ => 0, none, none⟩

/-- Python set.add: membership-preserving insert. -/
def addToSet (l : List String) (x : String) : List String :=
  if x ∈ l then l else l ++ [x]

def joinStr (c : Char) (l : List String) : String :=
  String.mk (joinWith c (l.map String.data))

/-- The IDE string built for one totals_by_ide entry (source lines
386-394): lower-cased ide followed by each nonempty version/plugin part. -/
def ideStrOf (info : IdeInfo) : String :=
  joinStr '/' ([lowerStr info.ide]
    ++ (if info.ide_version ≠ "" then [info.ide_version] else [])
    ++ (if info.plugin ≠ "" then [info.plugin] else [])
    ++ (if info.plugin_version ≠ "" then [info.plugin_version] else []))

/-- The tracked timestamp of one entry: plugin sampled_at if nonempty,
else the IDE sampled_at, normalized (source line 398). -/
def tsOf (info : IdeInfo) : Option String :=
  normalize_timestamp (if info.plugin_sampled_at ≠ "" then info.plugin_sampled_at else info.sampled_at)

/-- The update of the user_timestamps defaultdict for one tracked
timestamp: add ts0 to the login entry (creating it when absent) and
point timestamp_to_ide at the IDE string, last write winning (source
lines 400-401). -/
def updateUserTs (f : String → Option UserAccum) (login ts0 ide_str : String) :
    String → Option UserAccum :=
  fun u =>
    if u = login then
      some ⟨addToSet ((f login).getD ⟨[], fun _ => none⟩).timestamps ts0,
            fun t => if t = ts0 then some ide_str
                     else ((f login).getD ⟨[], fun _ => none⟩).timestamp_to_ide t⟩
    else f u

/-- Processing of one totals_by_ide entry (source lines 371-412). -/
def procIde (r : TelemetryRecord) (st : JsonState) (info : IdeInfo) : JsonState :=
  let st1 :=
    if r.user_login ≠ "" ∧ info.ide ≠ "" then
      match tsOf info with
      | some ts =>
        { st with user_timestamps := updateUserTs st.user_timestamps r.user_login ts (ideStrOf info) }
      | none => st
    else st
  { st1 with rows := st1.rows ++
      [⟨r.report_start_day, r.report_end_day, r.day, r.user_login,
        info.ide, info.ide_version, info.plugin, info.plugin_version⟩] }

/-- The interaction tally of one record (source lines 357-360). -/
def recInteractions (st : JsonState) (r : TelemetryRecord) : JsonState :=
  if r.user_login ≠ "" ∧ r.interaction_count ≠ 0 then
    { st with user_interactions :=
        fun u => if u = r.user_login then st.user_interactions u + r.interaction_count
                 else st.user_interactions u }
  else st

/-- The report-window capture of one record (source lines 362-365). -/
def recWindow (st : JsonState) (r : TelemetryRecord) : JsonState :=
  if st.report_start = none ∧ r.report_start_day ≠ "" then
    { st with report_start := some r.report_start_day, report_end := some r.report_end_day }
  else st

/-- Processing of one decoded JSON record (source lines 347-424). -/
def procRecord (st : JsonState) (r : TelemetryRecord) : JsonState :=
  let st2 := recWindow (recInteractions st r) r
  if r.totals_by_ide.isEmpty then
    { st2 with rows := st2.rows ++
        [⟨r.report_start_day, r.report_end_day, r.day, r.user_login, "", "", "", ""⟩] }
  else r.totals_by_ide.foldl (procIde r) st2

def parse_json_files (records : List TelemetryRecord) : JsonState :=
  records.foldl procRecord initJsonState

/-- The timestamp collection a map entry holds (empty when the key does
not exist). -/
def tsLookup (f : String → Option UserAccum) (u : String) : List String :=
  match f u with
  | none => []
  | some a => a.timestamps

/-- The timestamp set of a user (empty when the user was never seen with
a usable timestamp, i.e. the defaultdict key does not exist). -/
def tsSetOf (st : JsonState) (u : String) : List String :=
  tsLookup st.user_timestamps u

/-- The timestamp-to-IDE mapping of a user at one timestamp. -/
def tsIdeOf (st : JsonState) (u ts : String) : Option String :=
  match st.user_timestamps u with
  | none => none
  | some a => a.timestamp_to_ide ts

/-- One record contributes timestamp ts to user u iff the record is for
u (nonempty), some totals_by_ide entry has a nonempty ide, and that
entry yields ts (source lines 386-401). -/
def recordAddsTs (rec : TelemetryRecord) (u ts : String) : Prop :=
  rec.user_login = u ∧ rec.user_login ≠ "" ∧
    ∃ info ∈ rec.totals_by_ide, info.ide ≠ "" ∧ tsOf info = some ts

/-- One record's contribution to the interaction total of user u
(source lines 357-360). -/
def interactionContrib (u : String) (rec : TelemetryRecord) : Nat :=
  if rec.user_login = u ∧ rec.user_login ≠ "" ∧ rec.interaction_count ≠ 0 then
    rec.interaction_count
  else 0

/-- The view of the user_timestamps dict that find_discrepancies needs:
a login is a key iff it was ever seen with a usable timestamp, and maps
to its timestamp set. -/
def utsOf (st : JsonState) : String → Option (List String) :=
  fun u => (st.user_timestamps u).map (fun a => a.timestamps)

/-! ## find_discrepancies (source lines 433-621) -/

/-- One row of the activity report CSV; the four columns the source
reads: Login, Last Activity At, Last Surface Used, Report Time. -/
structure LedgerRow where
  login : String
  lastActivityAt : String
  lastSurface : String
  reportTime : String
deriving DecidableEq

/-- One emitted discrepancy dict, fields in source order: Login, Status,
Last Activity At, Latest Export Activity, Report Surface, JSON IDE,
Report Generated. -/
structure Discrepancy where
  login : String
  status : String
  lastActivityAt : String
  latestExportActivity : String
  reportSurface : String
  jsonIde : String
  reportGenerated : String
deriving DecidableEq

/-- The stats dict plus the discrepancy list, flattened into one state
record (the defaultdict breakdowns are total functions defaulting to 0,
all_copilot_chat_versions is a set). -/
structure FDState where
  discrepancies : List Discrepancy
  total_activity_users : Nat
  users_with_activity : Nat
  users_active_before_window : Nat
  users_active_in_window : Nat
  users_active_after_window : Nat
  users_unsupported_version : Nat
  missing_count : Nat
  timestamp_mismatch_count : Nat
  missing_surface_breakdown : String → Nat
  timestamp_mismatch_surface_breakdown : String → Nat
  missing_extension_breakdown : String → Nat
  timestamp_mismatch_extension_breakdown : String → Nat
  unsupported_version_breakdown : String → Nat
  all_copilot_chat_versions : List String

def initFDState : FDState :=
  ⟨[], 0, 0, 0, 0, 0, 0, 0, 0,
   fun _ => 0, fun _ => 0, fun _ => 0, fun _ => 0, fun _ => 0, []⟩

/-- defaultdict(int) increment. -/
def bump (f : String → Nat) (k : String) : String → Nat :=
  fun x => if x = k then f x + 1 else f x

/-- The surface label computed for stats breakdowns (source lines
503-512): first segment, with the unknown/..copilot.. override. -/
def surfaceOf (last_surface : String) : String :=
  if last_surface ≠ "" then
    let parts := splitStr '/' last_surface
    let s0 := parts.headD ""
    if lowerStr s0 = "unknown" ∧ 2 ≤ parts.length ∧
       strContainsSub (lowerStr (parts.getD 1 "")) "copilot" = true then "vscode"
    else s0
  else "unknown"

/-- The extension name/version label for stats breakdowns plus the
copilot-chat version to record, if any (source lines 530-552). -/
def extVersionInfo (last_surface : String) : String × Option String :=
  if last_surface ≠ "" then
    let sp := splitStr '/' last_surface
    if 4 ≤ sp.length then
      let en := sp.getD 2 ""
      let ev := sp.getD 3 ""
      (en ++ "/" ++ ev, if en = "copilot-chat" then some ev else none)
    else if 3 ≤ sp.length then
      let en0 := sp.getD 1 ""
      let ev := sp.getD 2 ""
      let en := if lowerStr en0 = "githubcopilotchat" then "copilot-chat" else en0
      (en ++ "/" ++ ev, if en = "copilot-chat" then some ev else none)
    else if 2 ≤ sp.length then (sp.getD 0 "", none)
    else ("unknown", none)
  else ("unknown", none)

/-- The record emitted with Status Missing from JSON (source lines 560-568). -/
def missingRecord (row : LedgerRow) : Discrepancy :=
  ⟨row.login, "Missing from JSON", row.lastActivityAt, "", row.lastSurface, "", row.reportTime⟩

/-- The record emitted with Status Timestamp Mismatch (source lines 594-602). -/
def staleRecord (row : LedgerRow) (latest : String) : Discrepancy :=
  ⟨row.login, "Timestamp Mismatch", row.lastActivityAt, latest, row.lastSurface, "", row.reportTime⟩

/-- Processing of one activity-report row (source lines 477-608).
distilled_users is the set of user logins of the distilled rows;
user_timestamps maps a login to its timestamp set when the login is a
key of the user_timestamps dict (its timestamp_to_ide component is read
by the source but never used for emission, so it is not needed here).
report_start_dt and report_end_dt are the day numbers of the parsed
window bounds. -/
def processRow (distilled_users : List String)
    (user_timestamps : String → Option (List String))
    (report_start_dt report_end_dt : Nat) (st : FDState) (row : LedgerRow) : FDState :=
  let st1 := { st with total_activity_users := st.total_activity_users + 1 }
  if row.lastActivityAt ≠ "" ∧ lowerStr row.lastActivityAt ≠ "none" then
    let st2 := { st1 with users_with_activity := st1.users_with_activity + 1 }
    match parseDateDays (strTake row.lastActivityAt 10) with
    | none => st2
    | some d =>
      let st3 :=
        if d < report_start_dt then
          { st2 with users_active_before_window := st2.users_active_before_window + 1 }
        else if report_end_dt < d then
          { st2 with users_active_after_window := st2.users_active_after_window + 1 }
        else { st2 with users_active_in_window := st2.users_active_in_window + 1 }
      if report_start_dt ≤ d ∧ d ≤ report_end_dt then
        let surface := surfaceOf row.lastSurface
        if lowerStr surface = "neovim" then st3
        else if (is_version_supported row.lastSurface).1 = false then
          { st3 with users_unsupported_version := st3.users_unsupported_version + 1,
                     unsupported_version_breakdown := bump st3.unsupported_version_breakdown surface }
        else
          let normalized_report_ts := (normalize_timestamp row.lastActivityAt).getD ""
          let ev := extVersionInfo row.lastSurface
          let st4 :=
            match ev.2 with
            | some v => { st3 with all_copilot_chat_versions := addToSet st3.all_copilot_chat_versions v }
            | none => st3
          if row.login ∉ distilled_users then
            { st4 with missing_count := st4.missing_count + 1,
                       missing_surface_breakdown := bump st4.missing_surface_breakdown surface,
                       missing_extension_breakdown := bump st4.missing_extension_breakdown ev.1,
                       discrepancies := st4.discrepancies ++ [missingRecord row] }
          else
            match user_timestamps row.login with
            | some json_timestamps =>
              let most_recent := if json_timestamps.isEmpty then "" else strMaxList json_timestamps
              let fc := find_closest_timestamp normalized_report_ts json_timestamps 24
              if fc.2.1 = false then
                { st4 with timestamp_mismatch_count := st4.timestamp_mismatch_count + 1,
                           timestamp_mismatch_surface_breakdown :=
                             bump st4.timestamp_mismatch_surface_breakdown surface,
                           timestamp_mismatch_extension_breakdown :=
                             bump st4.timestamp_mismatch_extension_breakdown ev.1,
                           discrepancies := st4.discrepancies ++ [staleRecord row most_recent] }
              else st4
            | none => st4
      else st3
  else st1

/-- The distilled user set (source line 449). -/
def distilledUsersOf (rows : List DistilledRow) : List String :=
  rows.foldl (fun acc r => addToSet acc r.user_login) []

/-- find_discrepancies: parse the window bounds (a ValueError there
aborts the function, modelled as none) and fold over the CSV rows. -/
def find_discrepancies (distilled_rows : List DistilledRow)
    (user_timestamps : String → Option (List String))
    (activity_rows : List LedgerRow) (report_start report_end : String) : Option FDState :=
  match parseDateDays report_start, parseDateDays report_end with
  | some s, some e =>
    some (activity_rows.foldl
      (processRow (distilledUsersOf distilled_rows) user_timestamps s e) initFDState)
  | _, _ => none

/-! ## The effective analysis window of main (source lines 1155-1200) -/

/-- The cutoff date: report generation date minus JSON_EXPORT_DELAY_HOURS
= 96 hours; subtracting 96 hours from a midnight datetime is exactly 4
calendar days, then strftime back to YYYY-MM-DD (source lines 1170-1173). -/
def cutoff_date (report_generated_date : String) : Option String :=
  (parseDate report_generated_date).map
    (fun ymd => formatDate (civilFromDays (rataDie ymd.1 ymd.2.1 ymd.2.2 - 4)))

/-- effective_end = min(report_end, cutoff_date), Python min on
YYYY-MM-DD strings (source line 1200). -/
def effective_end (report_end report_generated_date : String) : Option String :=
  (cutoff_date report_generated_date).map (fun c => strMin report_end c)

/-! ## Helper predicates for the classification claims -/

/-- The Matched condition: the user is a key of the timestamp index and
the tolerance matcher finds a timestamp within the 24-hour tolerance. -/
def matchedAtB (user_timestamps : String → Option (List String)) (row : LedgerRow) : Bool :=
  match user_timestamps row.login with
  | none => false
  | some ts =>
    (find_closest_timestamp ((normalize_timestamp row.lastActivityAt).getD "") ts 24).2.1

/-- The Latest Export Activity field a Stale record would carry. -/
def latestOf (user_timestamps : String → Option (List String)) (row : LedgerRow) : String :=
  match user_timestamps row.login with
  | none => ""
  | some ts => if ts.isEmpty then "" else strMaxList ts

/-- The trichotomy asserted by the spec for an eligible in-window entry:
the row is emitted as Missing from JSON, or emitted as Timestamp
Mismatch, or is implicitly Matched and not emitted. -/
def claimC1At (du : List String) (uts : String → Option (List String))
    (sD eD : Nat) (st : FDState) (row : LedgerRow) : Prop :=
  (processRow du uts sD eD st row).discrepancies = st.discrepancies ++ [missingRecord row]
  ∨ (processRow du uts sD eD st row).discrepancies = st.discrepancies ++ [staleRecord row (latestOf uts row)]
  ∨ (matchedAtB uts row = true ∧ (processRow du uts sD eD st row).discrepancies = st.discrepancies)

instance (du : List String) (uts : String → Option (List String)) (sD eD : Nat)
    (st : FDState) (row : LedgerRow) : Decidable (claimC1At du uts sD eD st row) := by
  unfold claimC1At; infer_instance

/-! ## Helper lemmas -/

theorem data_append_ne (s t : String) (h : s.data ≠ []) : (s ++ t).data ≠ [] := by
  rw [String.data_append]
  intro hc
  exact h (List.append_eq_nil.mp hc).1

theorem ne_empty_of_data (s : String) (h : s.data ≠ []) : s ≠ "" := by
  intro hc
  rw [hc] at h
  exact h rfl

theorem extCheck_spec (mv : MinVer) (evs : String) :
    ((extCheck mv evs).1 = true ∧ (extCheck mv evs).2 = none) ∨
    ((extCheck mv evs).1 = false ∧ ∃ r, (extCheck mv evs).2 = some r ∧ r ≠ "") := by
  unfold extCheck
  split
  · split
    · split
      · split
        · right
          exact ⟨rfl, _, rfl,
            ne_empty_of_data _ (data_append_ne _ _ (data_append_ne _ _ (data_append_ne _ _ (by decide))))⟩
        · left; exact ⟨rfl, rfl⟩
      · left; exact ⟨rfl, rfl⟩
    · left; exact ⟨rfl, rfl⟩
  · left; exact ⟨rfl, rfl⟩

theorem ideStandardCheck_spec (mv : MinVer) (iv : List Nat) (ivs evs : String) :
    ((ideStandardCheck mv iv ivs evs).1 = true ∧ (ideStandardCheck mv iv ivs evs).2 = none) ∨
    ((ideStandardCheck mv iv ivs evs).1 = false ∧
      ∃ r, (ideStandardCheck mv iv ivs evs).2 = some r ∧ r ≠ "") := by
  unfold ideStandardCheck
  split
  · split
    · split
      · right
        exact ⟨rfl, _, rfl,
          ne_empty_of_data _ (data_append_ne _ _ (data_append_ne _ _ (data_append_ne _ _ (by decide))))⟩
      · exact extCheck_spec mv evs
    · exact extCheck_spec mv evs
  · exact extCheck_spec mv evs

theorem ideJetbrainsCheck_spec (mv : MinVer) (iv : List Nat) (ivs evs : String) :
    ((ideJetbrainsCheck mv iv ivs evs).1 = true ∧ (ideJetbrainsCheck mv iv ivs evs).2 = none) ∨
    ((ideJetbrainsCheck mv iv ivs evs).1 = false ∧
      ∃ r, (ideJetbrainsCheck mv iv ivs evs).2 = some r ∧ r ≠ "") := by
  unfold ideJetbrainsCheck
  split
  · split
    · split
      · right
        exact ⟨rfl, _, rfl,
          ne_empty_of_data _ (data_append_ne _ _ (data_append_ne _ _
            (data_append_ne _ _ (data_append_ne _ _ (by decide)))))⟩
      · exact extCheck_spec mv evs
    · exact extCheck_spec mv evs
  · exact extCheck_spec mv evs

theorem is_version_supported_parts_spec (parts : List String) :
    ((is_version_supported_parts parts).1 = true ∧ (is_version_supported_parts parts).2 = none) ∨
    ((is_version_supported_parts parts).1 = false ∧
      ∃ r, (is_version_supported_parts parts).2 = some r ∧ r ≠ "") := by
  unfold is_version_supported_parts
  split
  · right; exact ⟨rfl, _, rfl, by decide⟩
  · split
    · left; exact ⟨rfl, rfl⟩
    · left; exact ⟨rfl, rfl⟩
    · split
      · right
        exact ⟨rfl, _, rfl, ne_empty_of_data _ (data_append_ne _ _ (by decide))⟩
      · split
        · exact ideJetbrainsCheck_spec _ _ _ _
        · exact ideStandardCheck_spec _ _ _ _

/-- C10: is_version_supported returns eligible=true exactly when the
reason is none; every ineligible verdict carries a nonempty reason. -/
theorem is_version_supported_eligible_iff_no_reason (s : String) :
    ((is_version_supported s).1 = true ∧ (is_version_supported s).2 = none) ∨
    ((is_version_supported s).1 = false ∧
      ∃ r, (is_version_supported s).2 = some r ∧ r ≠ "") := by
  unfold is_version_supported
  split
  · right; exact ⟨rfl, _, rfl, by decide⟩
  · exact is_version_supported_parts_spec _

theorem regimeOf_lookup_found (n : String) (mvo : Option MinVer) (jb : Bool)
    (h : regimeOf n = some (mvo, jb)) : ∃ mv, mvo = some mv := by
  unfold regimeOf at h
  split at h
  · injection h with h2
    exact ⟨_, (congrArg Prod.fst h2).symm⟩
  · split at h
    · injection h with h2
      exact ⟨_, (congrArg Prod.fst h2).symm⟩
    · split at h
      · injection h with h2
        exact ⟨_, (congrArg Prod.fst h2).symm⟩
      · split at h
        · injection h with h2
          exact ⟨_, (congrArg Prod.fst h2).symm⟩
        · exact absurd h (by simp)

theorem extCheck_parse_none (mv : MinVer) (evs : String)
    (h : parse_version evs = none) : extCheck mv evs = (true, none) := by
  unfold extCheck
  split
  · rw [h]
  · rfl

/-- C2 counterexample: the extension version segment "beta" is present
and unparseable, yet the surface is judged eligible — a parse failure of
a present extension version string does not yield eligible=False. -/
theorem unparseable_ext_version_assumed_supported :
    parse_version "beta" = none ∧
    (is_version_supported "vscode/1.101.0/copilot-chat/beta").1 = true := by
  exact ⟨rfl, rfl⟩

/-- C2 amended: a present but unparseable client (IDE) version makes
is_version_supported return eligible=False for every known client
family, while a present but unparseable extension version is ignored:
the verdict is the same as if no extension version were present. -/
theorem unparseable_client_version_fails_closed :
    (∀ (s : String), s ≠ "" → ¬ (splitStr '/' s).length < 2 →
      regimeOf (lowerStr ((splitStr '/' s).getD 0 "")) ≠ none →
      parse_version ((splitStr '/' s).getD 1 "") = none →
      (is_version_supported s).1 = false) ∧
    (∀ (p0 p1 p2 p3 : String) (r : List String), parse_version p3 = none →
      is_version_supported_parts (p0 :: p1 :: p2 :: p3 :: r) =
      is_version_supported_parts (p0 :: p1 :: p2 :: "" :: r)) := by
  constructor
  · intro s h0 h1 h2 h3
    unfold is_version_supported
    rw [if_neg h0]
    unfold is_version_supported_parts
    rw [if_neg h1]
    cases hreg : regimeOf (lowerStr ((splitStr '/' s).getD 0 "")) with
    | none => exact absurd hreg h2
    | some x =>
      obtain ⟨mvo, jb⟩ := x
      obtain ⟨mv, rfl⟩ := regimeOf_lookup_found _ _ _ hreg
      rw [h3]
  · intro p0 p1 p2 p3 r h
    have hS : ∀ (mv : MinVer) (iv : List Nat) (ivs : String),
        ideStandardCheck mv iv ivs p3 = ideStandardCheck mv iv ivs "" := by
      intro mv iv ivs
      unfold ideStandardCheck
      rw [extCheck_parse_none mv p3 h, extCheck_parse_none mv "" (by rfl)]
    have hJ : ∀ (mv : MinVer) (iv : List Nat) (ivs : String),
        ideJetbrainsCheck mv iv ivs p3 = ideJetbrainsCheck mv iv ivs "" := by
      intro mv iv ivs
      unfold ideJetbrainsCheck
      rw [extCheck_parse_none mv p3 h, extCheck_parse_none mv "" (by rfl)]
    unfold is_version_supported_parts extVersionStrOf
    simp only [List.length_cons, List.getD_cons_succ, List.getD_cons_zero]
    rw [if_neg (by omega : ¬ r.length + 1 + 1 + 1 + 1 < 2),
        if_neg (by omega : ¬ r.length + 1 + 1 + 1 + 1 < 2),
        if_pos (by omega : 3 < r.length + 1 + 1 + 1 + 1),
        if_pos (by omega : 3 < r.length + 1 + 1 + 1 + 1)]
    cases regimeOf (lowerStr p0) with
    | none => rfl
    | some x =>
      obtain ⟨mvo, jb⟩ := x
      cases mvo with
      | none => rfl
      | some mv =>
        cases parse_version p1 with
        | none => rfl
        | some iv =>
          cases jb with
          | false => simp only [Bool.false_eq_true, if_false, hS]
          | true => simp only [if_true, hJ]

/-- Witness instantiating both clauses of the amended C2 theorem. -/
theorem unparseable_client_version_fails_closed_witness :
    (is_version_supported "vscode/abc").1 = false ∧
    is_version_supported_parts ["vscode", "1.101.0", "copilot-chat", "beta"] =
      is_version_supported_parts ["vscode", "1.101.0", "copilot-chat", ""] :=
  ⟨unparseable_client_version_fails_closed.1 "vscode/abc" (by decide) (by decide)
      (by decide) (by decide),
   unparseable_client_version_fails_closed.2 "vscode" "1.101.0" "copilot-chat" "beta" []
      (by decide)⟩

/-- C6: for surfaces resolving to the JetBrains regime, the eligibility
verdict depends only on the leading parsed component of the IDE version
(the three-digit build prefix compared against the configured minimum
build 242); the trailing build digits are irrelevant. -/
theorem jetbrains_eligibility_depends_only_on_build_head
    (fam v1 v2 : String) (rest : List String) (a : Nat) (t1 t2 : List Nat)
    (hfam : isJetbrainsFamily (lowerStr fam) = true)
    (h1 : parse_version v1 = some (a :: t1))
    (h2 : parse_version v2 = some (a :: t2)) :
    (is_version_supported_parts (fam :: v1 :: rest)).1 =
    (is_version_supported_parts (fam :: v2 :: rest)).1 := by
  have hnv : ¬ ((decide (lowerStr fam = "vscode") || decide (lowerStr fam = "vscode-chat")) = true) := by
    simp only [Bool.or_eq_true, decide_eq_true_eq]
    rintro (h | h) <;> rw [h] at hfam <;> exact absurd hfam (by decide)
  have hreg : regimeOf (lowerStr fam) = some (some ⟨none, some 242, some [1, 5, 52]⟩, true) := by
    unfold regimeOf
    rw [if_neg hnv, if_pos hfam]
    rfl
  have hext : extVersionStrOf (fam :: v1 :: rest) = extVersionStrOf (fam :: v2 :: rest) := by
    unfold extVersionStrOf
    simp only [List.length_cons, List.getD_cons_succ]
  unfold is_version_supported_parts
  simp only [List.length_cons, List.getD_cons_zero, List.getD_cons_succ]
  rw [if_neg (by omega : ¬ rest.length + 1 + 1 < 2), if_neg (by omega : ¬ rest.length + 1 + 1 < 2),
      hreg, h1, h2, hext]
  by_cases hc : a < 242
  · simp [ideJetbrainsCheck, hc]
  · simp [ideJetbrainsCheck, hc]

/-- Witness: two JetBrains surfaces sharing build prefix 242 but with
different trailing build digits get the same verdict. -/
theorem jetbrains_eligibility_depends_only_on_build_head_witness :
    (is_version_supported_parts ["jetbrains-iu", "242.100.7", "copilot-intellij", "1.5.57"]).1 =
    (is_version_supported_parts ["jetbrains-iu", "242.29999.131", "copilot-intellij", "1.5.57"]).1 :=
  jetbrains_eligibility_depends_only_on_build_head "jetbrains-iu" "242.100.7" "242.29999.131"
    ["copilot-intellij", "1.5.57"] 242 [100, 7] [29999, 131] (by decide) (by decide) (by decide)

/-- C3: an activity-report row whose surface fails the version
eligibility check never contributes a discrepancy record (neither
Missing from JSON nor Timestamp Mismatch), regardless of the telemetry
index contents. -/
theorem ineligible_entry_never_emitted
    (du : List String) (uts : String → Option (List String)) (sD eD : Nat)
    (st : FDState) (row : LedgerRow)
    (h : (is_version_supported row.lastSurface).1 = false) :
    (processRow du uts sD eD st row).discrepancies = st.discrepancies ∧
    (processRow du uts sD eD st row).missing_count = st.missing_count ∧
    (processRow du uts sD eD st row).timestamp_mismatch_count = st.timestamp_mismatch_count := by
  simp only [processRow]
  repeat' split
  all_goals simp_all

/-- Witness: a VS Code surface below the 1.101 floor, in-window, with
the user entirely absent from telemetry, still emits nothing. -/
theorem ineligible_entry_never_emitted_witness :
    (processRow [] (fun _ => none) (rataDie 2025 12 1) (rataDie 2025 12 13) initFDState
      ⟨"u", "2025-12-05T10:00:00Z", "vscode/1.100.0/copilot-chat/0.28.0", "x"⟩).discrepancies
      = initFDState.discrepancies ∧
    (processRow [] (fun _ => none) (rataDie 2025 12 1) (rataDie 2025 12 13) initFDState
      ⟨"u", "2025-12-05T10:00:00Z", "vscode/1.100.0/copilot-chat/0.28.0", "x"⟩).missing_count
      = initFDState.missing_count ∧
    (processRow [] (fun _ => none) (rataDie 2025 12 1) (rataDie 2025 12 13) initFDState
      ⟨"u", "2025-12-05T10:00:00Z", "vscode/1.100.0/copilot-chat/0.28.0", "x"⟩).timestamp_mismatch_count
      = initFDState.timestamp_mismatch_count :=
  ineligible_entry_never_emitted [] (fun _ => none) (rataDie 2025 12 1) (rataDie 2025 12 13)
    initFDState ⟨"u", "2025-12-05T10:00:00Z", "vscode/1.100.0/copilot-chat/0.28.0", "x"⟩
    (by decide)

/-- C1 counterexample: telemetry holding one record for alice with an
empty totals_by_ide array puts alice in the distilled user set but not
in the timestamp index; her eligible, in-window, non-neovim ledger row
is then neither emitted as Missing from JSON, nor emitted as Timestamp
Mismatch, nor Matched within tolerance — it falls through without being
classified, so the claimed trichotomy fails. -/
theorem eligible_entry_falls_through_counterexample :
    (("2025-12-05T10:00:00Z" : String) ≠ "" ∧ lowerStr "2025-12-05T10:00:00Z" ≠ "none") ∧
    parseDateDays (strTake "2025-12-05T10:00:00Z" 10) = some (rataDie 2025 12 5) ∧
    (rataDie 2025 12 1 ≤ rataDie 2025 12 5 ∧ rataDie 2025 12 5 ≤ rataDie 2025 12 13) ∧
    lowerStr (surfaceOf "vscode/1.101.0/copilot-chat/0.28.0") ≠ "neovim" ∧
    (is_version_supported "vscode/1.101.0/copilot-chat/0.28.0").1 = true ∧
    distilledUsersOf
      (parse_json_files [⟨"2025-12-01", "2025-12-31", "2025-12-02", "alice", 0, []⟩]).rows
      = ["alice"] ∧
    ¬ claimC1At
        (distilledUsersOf
          (parse_json_files [⟨"2025-12-01", "2025-12-31", "2025-12-02", "alice", 0, []⟩]).rows)
        (utsOf (parse_json_files [⟨"2025-12-01", "2025-12-31", "2025-12-02", "alice", 0, []⟩]))
        (rataDie 2025 12 1) (rataDie 2025 12 13) initFDState
        ⟨"alice", "2025-12-05T10:00:00Z", "vscode/1.101.0/copilot-chat/0.28.0",
         "2025-12-17T20:15:05Z"⟩ := by
  decide

/-- C1 amended: for an eligible (non-empty activity, parseable date
inside the window, non-neovim, version-supported) ledger row whose user
is either absent from the distilled user set or present as a key of the
timestamp index, exactly one disposition applies: absent users are
emitted as Missing from JSON; indexed users are emitted as Timestamp
Mismatch when no timestamp is within tolerance, and otherwise are
Matched and emit nothing.  (Users present in the distilled rows but
without indexed timestamps are skipped silently, which is what the
counterexample exhibits.) -/
theorem eligible_entry_trichotomy
    (du : List String) (uts : String → Option (List String)) (sD eD : Nat)
    (st : FDState) (row : LedgerRow) (d : Nat)
    (hact1 : row.lastActivityAt ≠ "")
    (hact2 : lowerStr row.lastActivityAt ≠ "none")
    (hdate : parseDateDays (strTake row.lastActivityAt 10) = some d)
    (hwin1 : sD ≤ d) (hwin2 : d ≤ eD)
    (hneo : lowerStr (surfaceOf row.lastSurface) ≠ "neovim")
    (hsup : (is_version_supported row.lastSurface).1 = true)
    (hcov : row.login ∉ du ∨ (uts row.login).isSome = true) :
    (row.login ∉ du ∧
      (processRow du uts sD eD st row).discrepancies = st.discrepancies ++ [missingRecord row]) ∨
    (row.login ∈ du ∧ ∃ ts, uts row.login = some ts ∧
      ((matchedAtB uts row = false ∧
         (processRow du uts sD eD st row).discrepancies
           = st.discrepancies ++ [staleRecord row (latestOf uts row)]) ∨
       (matchedAtB uts row = true ∧
         (processRow du uts sD eD st row).discrepancies = st.discrepancies))) := by
  simp only [processRow, hdate,
    if_pos (show row.lastActivityAt ≠ "" ∧ lowerStr row.lastActivityAt ≠ "none" from ⟨hact1, hact2⟩),
    if_neg (show ¬ d < sD by omega), if_neg (show ¬ eD < d by omega),
    if_pos (show sD ≤ d ∧ d ≤ eD from ⟨hwin1, hwin2⟩), if_neg hneo,
    if_neg (show ¬ (is_version_supported row.lastSurface).1 = false by simp [hsup])]
  by_cases hdu : row.login ∈ du
  · right
    rcases hcov with hc | hc
    · exact absurd hdu hc
    rcases Option.isSome_iff_exists.mp hc with ⟨ts, hts⟩
    refine ⟨hdu, ts, hts, ?_⟩
    have hmb : matchedAtB uts row =
        (find_closest_timestamp ((normalize_timestamp row.lastActivityAt).getD "") ts 24).2.1 := by
      unfold matchedAtB
      rw [hts]
    have hlat : latestOf uts row = if ts.isEmpty then "" else strMaxList ts := by
      unfold latestOf
      rw [hts]
    simp only [if_neg (not_not_intro hdu), hts]
    cases hfc : (find_closest_timestamp ((normalize_timestamp row.lastActivityAt).getD "") ts 24).2.1 with
    | false =>
      left
      refine ⟨hmb.trans hfc, ?_⟩
      simp only [hfc, if_pos rfl, hlat]
      cases (extVersionInfo row.lastSurface).2 <;> simp
    | true =>
      right
      refine ⟨hmb.trans hfc, ?_⟩
      rw [if_neg (by simp : ¬ (true = false))]
      cases (extVersionInfo row.lastSurface).2 <;> simp
  · left
    refine ⟨hdu, ?_⟩
    simp only [if_pos hdu]
    cases (extVersionInfo row.lastSurface).2 <;> simp

/-- Witness instantiating the amended C1 theorem at the spec example:
bob, ledger time 2025-12-13T11:35:21Z, telemetry at 2025-12-12T10:00:00Z,
gap about 25.6 hours. -/
theorem eligible_entry_trichotomy_witness :
    (("bob" : String) ∉ (["bob"] : List String) ∧
      (processRow ["bob"] (fun u => if u = "bob" then some ["2025-12-12T10:00:00Z"] else none)
        (rataDie 2025 12 1) (rataDie 2025 12 13) initFDState
        ⟨"bob", "2025-12-13T11:35:21Z", "vscode/1.101.0/copilot-chat/0.28.0", "t"⟩).discrepancies
        = initFDState.discrepancies ++
          [missingRecord ⟨"bob", "2025-12-13T11:35:21Z", "vscode/1.101.0/copilot-chat/0.28.0", "t"⟩]) ∨
    (("bob" : String) ∈ (["bob"] : List String) ∧ ∃ ts,
      (fun u => if u = "bob" then some ["2025-12-12T10:00:00Z"] else none) "bob" = some ts ∧
      ((matchedAtB (fun u => if u = "bob" then some ["2025-12-12T10:00:00Z"] else none)
          ⟨"bob", "2025-12-13T11:35:21Z", "vscode/1.101.0/copilot-chat/0.28.0", "t"⟩ = false ∧
        (processRow ["bob"] (fun u => if u = "bob" then some ["2025-12-12T10:00:00Z"] else none)
          (rataDie 2025 12 1) (rataDie 2025 12 13) initFDState
          ⟨"bob", "2025-12-13T11:35:21Z", "vscode/1.101.0/copilot-chat/0.28.0", "t"⟩).discrepancies
          = initFDState.discrepancies ++
            [staleRecord ⟨"bob", "2025-12-13T11:35:21Z", "vscode/1.101.0/copilot-chat/0.28.0", "t"⟩
              (latestOf (fun u => if u = "bob" then some ["2025-12-12T10:00:00Z"] else none)
                ⟨"bob", "2025-12-13T11:35:21Z", "vscode/1.101.0/copilot-chat/0.28.0", "t"⟩)]) ∨
       (matchedAtB (fun u => if u = "bob" then some ["2025-12-12T10:00:00Z"] else none)
          ⟨"bob", "2025-12-13T11:35:21Z", "vscode/1.101.0/copilot-chat/0.28.0", "t"⟩ = true ∧
        (processRow ["bob"] (fun u => if u = "bob" then some ["2025-12-12T10:00:00Z"] else none)
          (rataDie 2025 12 1) (rataDie 2025 12 13) initFDState
          ⟨"bob", "2025-12-13T11:35:21Z", "vscode/1.101.0/copilot-chat/0.28.0", "t"⟩).discrepancies
          = initFDState.discrepancies))) :=
  eligible_entry_trichotomy ["bob"]
    (fun u => if u = "bob" then some ["2025-12-12T10:00:00Z"] else none)
    (rataDie 2025 12 1) (rataDie 2025 12 13) initFDState
    ⟨"bob", "2025-12-13T11:35:21Z", "vscode/1.101.0/copilot-chat/0.28.0", "t"⟩
    (rataDie 2025 12 13) (by decide) (by decide) (by decide) (by decide) (by decide)
    (by decide) (by decide) (by decide)

/-- C7: the effective analysis window end is the minimum of the declared
window end and the ledger generation date minus 96 hours (= 4 days from
a midnight datetime); a row with activity after the effective end is
tallied as active-after-window and excluded from classification, and a
row before the declared start is tallied as active-before-window and
likewise excluded. -/
theorem effective_window_end_and_exclusion :
    (∀ (re ge : String) (y m dd : Nat), parseDate ge = some (y, m, dd) →
      effective_end re ge = some (strMin re (formatDate (civilFromDays (rataDie y m dd - 4))))) ∧
    (∀ (du : List String) (uts : String → Option (List String)) (sD eD : Nat)
        (st : FDState) (row : LedgerRow) (d : Nat),
      row.lastActivityAt ≠ "" → lowerStr row.lastActivityAt ≠ "none" →
      parseDateDays (strTake row.lastActivityAt 10) = some d →
      sD ≤ eD → eD < d →
      (processRow du uts sD eD st row).users_active_after_window
          = st.users_active_after_window + 1 ∧
      (processRow du uts sD eD st row).users_active_in_window = st.users_active_in_window ∧
      (processRow du uts sD eD st row).discrepancies = st.discrepancies ∧
      (processRow du uts sD eD st row).missing_count = st.missing_count ∧
      (processRow du uts sD eD st row).timestamp_mismatch_count = st.timestamp_mismatch_count ∧
      (processRow du uts sD eD st row).users_unsupported_version = st.users_unsupported_version) ∧
    (∀ (du : List String) (uts : String → Option (List String)) (sD eD : Nat)
        (st : FDState) (row : LedgerRow) (d : Nat),
      row.lastActivityAt ≠ "" → lowerStr row.lastActivityAt ≠ "none" →
      parseDateDays (strTake row.lastActivityAt 10) = some d →
      d < sD →
      (processRow du uts sD eD st row).users_active_before_window
          = st.users_active_before_window + 1 ∧
      (processRow du uts sD eD st row).discrepancies = st.discrepancies) := by
  refine ⟨?_, ?_, ?_⟩
  · intro re ge y m dd h
    unfold effective_end cutoff_date
    rw [h]
    rfl
  · intro du uts sD eD st row d h1 h2 h3 h4 h5
    simp only [processRow, h3, if_pos (show row.lastActivityAt ≠ "" ∧ lowerStr row.lastActivityAt ≠ "none" from ⟨h1, h2⟩),
      if_neg (show ¬ d < sD by omega), if_pos h5,
      if_neg (show ¬ (sD ≤ d ∧ d ≤ eD) by omega)]
    simp
  · intro du uts sD eD st row d h1 h2 h3 h4
    simp only [processRow, h3, if_pos (show row.lastActivityAt ≠ "" ∧ lowerStr row.lastActivityAt ≠ "none" from ⟨h1, h2⟩),
      if_pos h4, if_neg (show ¬ (sD ≤ d ∧ d ≤ eD) by omega)]
    simp

/-- Witness: ledger generated 2025-12-17 with declared end 2025-12-31
gives effective end 2025-12-13; a row active 2025-12-15 is tallied after
the window and emits nothing; a row active 2025-11-30 is tallied before
the window. -/
theorem effective_window_end_and_exclusion_witness :
    effective_end "2025-12-31" "2025-12-17"
      = some (strMin "2025-12-31" (formatDate (civilFromDays (rataDie 2025 12 17 - 4)))) ∧
    (processRow [] (fun _ => none) (rataDie 2025 12 1) (rataDie 2025 12 13) initFDState
        ⟨"w", "2025-12-15T10:00:00Z", "vscode/1.101.0/copilot-chat/0.28.0", "t"⟩).users_active_after_window
      = initFDState.users_active_after_window + 1 ∧
    (processRow [] (fun _ => none) (rataDie 2025 12 1) (rataDie 2025 12 13) initFDState
        ⟨"w", "2025-12-15T10:00:00Z", "vscode/1.101.0/copilot-chat/0.28.0", "t"⟩).discrepancies
      = initFDState.discrepancies ∧
    (processRow [] (fun _ => none) (rataDie 2025 12 1) (rataDie 2025 12 13) initFDState
        ⟨"v", "2025-11-30T10:00:00Z", "vscode/1.101.0/copilot-chat/0.28.0", "t"⟩).users_active_before_window
      = initFDState.users_active_before_window + 1 :=
  ⟨effective_window_end_and_exclusion.1 "2025-12-31" "2025-12-17" 2025 12 17 (by decide),
   (effective_window_end_and_exclusion.2.1 [] (fun _ => none) (rataDie 2025 12 1)
      (rataDie 2025 12 13) initFDState
      ⟨"w", "2025-12-15T10:00:00Z", "vscode/1.101.0/copilot-chat/0.28.0", "t"⟩
      (rataDie 2025 12 15) (by decide) (by decide) (by decide) (by decide) (by decide)).1,
   (effective_window_end_and_exclusion.2.1 [] (fun _ => none) (rataDie 2025 12 1)
      (rataDie 2025 12 13) initFDState
      ⟨"w", "2025-12-15T10:00:00Z", "vscode/1.101.0/copilot-chat/0.28.0", "t"⟩
      (rataDie 2025 12 15) (by decide) (by decide) (by decide) (by decide) (by decide)).2.2.1,
   (effective_window_end_and_exclusion.2.2 [] (fun _ => none) (rataDie 2025 12 1)
      (rataDie 2025 12 13) initFDState
      ⟨"v", "2025-11-30T10:00:00Z", "vscode/1.101.0/copilot-chat/0.28.0", "t"⟩
      (rataDie 2025 11 30) (by decide) (by decide) (by decide) (by decide)).1⟩


theorem fcStep_none (r : Nat) (acc : Option String × Option Int) (ts : String)
    (h : parseTsSecs ts = none) : fcStep r acc ts = acc := by
  unfold fcStep
  rw [h]

theorem fcStep_some_fresh (r : Nat) (c : Option String) (ts : String) (s : Nat)
    (h : parseTsSecs ts = some s) :
    fcStep r (c, none) ts = (some ts, some (|(s : Int) - (r : Int)|)) := by
  unfold fcStep
  rw [h]

theorem fcStep_some_acc (r : Nat) (c : Option String) (m : Int) (ts : String) (s : Nat)
    (h : parseTsSecs ts = some s) :
    fcStep r (c, some m) ts =
      if |(s : Int) - (r : Int)| < m then (some ts, some (|(s : Int) - (r : Int)|))
      else (c, some m) := by
  unfold fcStep
  rw [h]

theorem fcScan_cases (r : Nat) (l : List String) :
    ∀ (c0 : String) (m0 : Int),
    ∃ c1 m1, l.foldl (fcStep r) (some c0, some m0) = (some c1, some m1) ∧ m1 ≤ m0 ∧
      (∀ ts s, ts ∈ l → parseTsSecs ts = some s → m1 ≤ |(s : Int) - (r : Int)|) ∧
      ((c1 = c0 ∧ m1 = m0) ∨
        (c1 ∈ l ∧ ∃ s1, parseTsSecs c1 = some s1 ∧ m1 = |(s1 : Int) - (r : Int)|)) := by
  induction l with
  | nil =>
    intro c0 m0
    exact ⟨c0, m0, rfl, le_refl _, by simp, Or.inl ⟨rfl, rfl⟩⟩
  | cons hd t ih =>
    intro c0 m0
    rw [List.foldl_cons]
    cases hp : parseTsSecs hd with
    | none =>
      rw [fcStep_none r _ _ hp]
      obtain ⟨c1, m1, he, hle, hmin, hor⟩ := ih c0 m0
      refine ⟨c1, m1, he, hle, ?_, ?_⟩
      · intro ts s hts hs
        rcases List.mem_cons.mp hts with rfl | hts
        · rw [hp] at hs; cases hs
        · exact hmin ts s hts hs
      · rcases hor with h | ⟨hc, hrest⟩
        · exact Or.inl h
        · exact Or.inr ⟨List.mem_cons_of_mem _ hc, hrest⟩
    | some s =>
      rw [fcStep_some_acc r _ _ _ _ hp]
      by_cases hlt : |(s : Int) - (r : Int)| < m0
      · rw [if_pos hlt]
        obtain ⟨c1, m1, he, hle, hmin, hor⟩ := ih hd (|(s : Int) - (r : Int)|)
        refine ⟨c1, m1, he, le_of_lt (lt_of_le_of_lt hle hlt), ?_, ?_⟩
        · intro ts s2 hts hs2
          rcases List.mem_cons.mp hts with rfl | hts
          · rw [hp] at hs2
            injection hs2 with hs2
            exact hs2 ▸ hle
          · exact hmin ts s2 hts hs2
        · rcases hor with ⟨hc, hm⟩ | ⟨hc, hrest⟩
          · exact Or.inr ⟨hc ▸ List.mem_cons_self _ _, s, hc ▸ hp, hm⟩
          · exact Or.inr ⟨List.mem_cons_of_mem _ hc, hrest⟩
      · rw [if_neg hlt]
        obtain ⟨c1, m1, he, hle, hmin, hor⟩ := ih c0 m0
        refine ⟨c1, m1, he, hle, ?_, ?_⟩
        · intro ts s2 hts hs2
          rcases List.mem_cons.mp hts with rfl | hts
          · rw [hp] at hs2
            injection hs2 with hs2
            subst hs2
            exact le_trans hle (not_lt.mp hlt)
          · exact hmin ts s2 hts hs2
        · rcases hor with h | ⟨hc, hrest⟩
          · exact Or.inl h
          · exact Or.inr ⟨List.mem_cons_of_mem _ hc, hrest⟩

theorem fcScan_top (r : Nat) (l : List String) :
    (l.foldl (fcStep r) (none, none) = (none, none) ∧ ∀ ts ∈ l, parseTsSecs ts = none) ∨
    (∃ c m sc, l.foldl (fcStep r) (none, none) = (some c, some m) ∧ c ∈ l ∧
      parseTsSecs c = some sc ∧ m = |(sc : Int) - (r : Int)| ∧
      ∀ ts s, ts ∈ l → parseTsSecs ts = some s → m ≤ |(s : Int) - (r : Int)|) := by
  induction l with
  | nil => exact Or.inl ⟨rfl, by simp⟩
  | cons hd t ih =>
    rw [List.foldl_cons]
    cases hp : parseTsSecs hd with
    | none =>
      rw [fcStep_none r _ _ hp]
      rcases ih with ⟨he, hall⟩ | ⟨c, m, sc, he, hc, hsc, hm, hmin⟩
      · refine Or.inl ⟨he, ?_⟩
        intro ts hts
        rcases List.mem_cons.mp hts with rfl | hts
        · exact hp
        · exact hall ts hts
      · refine Or.inr ⟨c, m, sc, he, List.mem_cons_of_mem _ hc, hsc, hm, ?_⟩
        intro ts s hts hs
        rcases List.mem_cons.mp hts with rfl | hts
        · rw [hp] at hs; cases hs
        · exact hmin ts s hts hs
    | some s =>
      rw [fcStep_some_fresh r _ _ _ hp]
      obtain ⟨c1, m1, he, hle, hmin, hor⟩ := fcScan_cases r t hd (|(s : Int) - (r : Int)|)
      rcases hor with ⟨hc, hm⟩ | ⟨hc, s1, hs1, hm⟩
      · refine Or.inr ⟨c1, m1, s, he, hc ▸ List.mem_cons_self _ _, hc ▸ hp, hm, ?_⟩
        intro ts s2 hts hs2
        rcases List.mem_cons.mp hts with rfl | hts
        · rw [hp] at hs2
          injection hs2 with hs2
          subst hs2
          exact hm.le
        · exact hmin ts s2 hts hs2
      · refine Or.inr ⟨c1, m1, s1, he, List.mem_cons_of_mem _ hc, hs1, hm, ?_⟩
        intro ts s2 hts hs2
        rcases List.mem_cons.mp hts with rfl | hts
        · rw [hp] at hs2
          injection hs2 with hs2
          subst hs2
          exact hle
        · exact hmin ts s2 hts hs2

/-- C4: given a parseable report timestamp, find_closest_timestamp
returns (null, false, null) when no telemetry timestamp parses, and
otherwise returns a telemetry timestamp attaining the minimum absolute
difference in seconds, with within_tolerance true iff that minimum is
at most tolerance_hours * 3600. -/
theorem find_closest_timestamp_min_spec
    (report_ts : String) (jts : List String) (tol : Nat) (r : Nat)
    (hr : parseTsSecs report_ts = some r) :
    ((∀ ts ∈ jts, parseTsSecs ts = none) →
      find_closest_timestamp report_ts jts tol = (none, false, none)) ∧
    (∀ ts0 s0, ts0 ∈ jts → parseTsSecs ts0 = some s0 →
      ∃ c sc, c ∈ jts ∧ parseTsSecs c = some sc ∧
        find_closest_timestamp report_ts jts tol
          = (some c, decide (|(sc : Int) - (r : Int)| ≤ (tol : Int) * 3600),
             some (|(sc : Int) - (r : Int)|)) ∧
        ∀ ts s, ts ∈ jts → parseTsSecs ts = some s →
          |(sc : Int) - (r : Int)| ≤ |(s : Int) - (r : Int)|) := by
  have hne : report_ts ≠ "" := by
    intro h
    rw [h] at hr
    rw [show parseTsSecs "" = none from rfl] at hr
    cases hr
  constructor
  · intro hall
    by_cases hemp : jts = []
    · subst hemp
      simp [find_closest_timestamp]
    · unfold find_closest_timestamp
      rw [if_neg (by simp [hne, hemp])]
      simp only [hr]
      rcases fcScan_top r jts with ⟨he, _⟩ | ⟨c, m, sc, he, hc, hsc, _, _⟩
      · rw [he]
      · exact absurd hsc (by rw [hall c hc]; simp)
  · intro ts0 s0 hts0 hs0
    have hemp : jts ≠ [] := by rintro rfl; cases hts0
    unfold find_closest_timestamp
    rw [if_neg (by simp [hne, hemp])]
    simp only [hr]
    rcases fcScan_top r jts with ⟨_, hall⟩ | ⟨c, m, sc, he, hc, hsc, hm, hmin⟩
    · rw [hall ts0 hts0] at hs0
      cases hs0
    · subst hm
      refine ⟨c, sc, hc, hsc, ?_, ?_⟩
      · rw [he]
      · exact hmin


/-- Witness instantiating the C4 theorem at the spec example (gap 92121
seconds, about 25.6 hours, beyond the 24-hour tolerance). -/
theorem find_closest_timestamp_min_spec_witness :
    ∃ c sc, c ∈ ["2025-12-12T10:00:00Z"] ∧ parseTsSecs c = some sc ∧
      find_closest_timestamp "2025-12-13T11:35:21Z" ["2025-12-12T10:00:00Z"] 24
        = (some c, decide (|(sc : Int) - (63927660921 : Int)| ≤ (24 : Int) * 3600),
           some (|(sc : Int) - (63927660921 : Int)|)) ∧
      ∀ ts s, ts ∈ ["2025-12-12T10:00:00Z"] → parseTsSecs ts = some s →
        |(sc : Int) - (63927660921 : Int)| ≤ |(s : Int) - (63927660921 : Int)| :=
  (find_closest_timestamp_min_spec "2025-12-13T11:35:21Z" ["2025-12-12T10:00:00Z"] 24
      63927660921 (by decide)).2
    "2025-12-12T10:00:00Z" 63927568800 (by decide) (by decide)

/-- C9: tolerance matching is symmetric in time direction: telemetry
timestamps that are d seconds before and d seconds after the report
timestamp yield the same absolute difference |d| and hence the same
within_tolerance verdict, for any tolerance. -/
theorem tolerance_symmetric_in_time_direction
    (rts t1 t2 : String) (tol : Nat) (r s1 s2 : Nat) (d : Int)
    (hr : parseTsSecs rts = some r)
    (hs1 : parseTsSecs t1 = some s1) (he1 : (s1 : Int) = (r : Int) - d)
    (hs2 : parseTsSecs t2 = some s2) (he2 : (s2 : Int) = (r : Int) + d) :
    (find_closest_timestamp rts [t1] tol).2 = (find_closest_timestamp rts [t2] tol).2 ∧
    (find_closest_timestamp rts [t1] tol).2.2 = some |d| := by
  have hne : rts ≠ "" := by
    intro h
    rw [h] at hr
    rw [show parseTsSecs "" = none from rfl] at hr
    cases hr
  have e1 : find_closest_timestamp rts [t1] tol
      = (some t1, decide (|d| ≤ (tol : Int) * 3600), some |d|) := by
    unfold find_closest_timestamp
    rw [if_neg (by simp [hne])]
    simp only [hr, List.foldl_cons, List.foldl_nil]
    rw [fcStep_some_fresh r none t1 s1 hs1]
    rw [show |(s1 : Int) - (r : Int)| = |d| from by rw [he1, sub_sub_cancel_left, abs_neg]]
  have e2 : find_closest_timestamp rts [t2] tol
      = (some t2, decide (|d| ≤ (tol : Int) * 3600), some |d|) := by
    unfold find_closest_timestamp
    rw [if_neg (by simp [hne])]
    simp only [hr, List.foldl_cons, List.foldl_nil]
    rw [fcStep_some_fresh r none t2 s2 hs2]
    rw [show |(s2 : Int) - (r : Int)| = |d| from by rw [he2, add_sub_cancel_left]]
  rw [e1, e2]
  exact ⟨rfl, rfl⟩

/-- Witness: telemetry 2 hours before and 2 hours after the ledger
timestamp give the same verdict, and under the 24-hour window both are
within tolerance. -/
theorem tolerance_symmetric_in_time_direction_witness :
    ((find_closest_timestamp "2025-12-13T11:35:21Z" ["2025-12-13T09:35:21Z"] 24).2
        = (find_closest_timestamp "2025-12-13T11:35:21Z" ["2025-12-13T13:35:21Z"] 24).2 ∧
      (find_closest_timestamp "2025-12-13T11:35:21Z" ["2025-12-13T09:35:21Z"] 24).2.2
        = some |(7200 : Int)|) ∧
    (find_closest_timestamp "2025-12-13T11:35:21Z" ["2025-12-13T09:35:21Z"] 24).2.1 = true ∧
    (find_closest_timestamp "2025-12-13T11:35:21Z" ["2025-12-13T13:35:21Z"] 24).2.1 = true :=
  ⟨tolerance_symmetric_in_time_direction "2025-12-13T11:35:21Z" "2025-12-13T09:35:21Z"
      "2025-12-13T13:35:21Z" 24 63927660921 63927653721 63927668121 7200
      (by decide) (by decide) (by decide) (by decide) (by decide),
   by decide, by decide⟩


theorem mem_addToSet (l : List String) (x ts : String) :
    ts ∈ addToSet l x ↔ ts ∈ l ∨ ts = x := by
  unfold addToSet
  split
  · constructor
    · exact Or.inl
    · rintro (h | rfl)
      · exact h
      · assumption
  · simp [List.mem_append]

theorem mem_tsLookup_updateUserTs (f : String → Option UserAccum)
    (login ts0 ide_str u ts : String) :
    ts ∈ tsLookup (updateUserTs f login ts0 ide_str) u ↔
      ts ∈ tsLookup f u ∨ (u = login ∧ ts = ts0) := by
  unfold tsLookup updateUserTs
  by_cases hu : u = login
  · simp only [hu, if_pos rfl]
    cases hf : f login with
    | none => simp [mem_addToSet]
    | some a => simp [mem_addToSet]
  · simp [if_neg hu, hu]

theorem procIde_interactions (rec : TelemetryRecord) (st : JsonState) (info : IdeInfo) :
    (procIde rec st info).user_interactions = st.user_interactions := by
  simp only [procIde]
  repeat' split
  all_goals rfl

theorem procIde_tsSet_mem (rec : TelemetryRecord) (st : JsonState) (info : IdeInfo)
    (u ts : String) :
    ts ∈ tsSetOf (procIde rec st info) u ↔
      ts ∈ tsSetOf st u ∨
        (rec.user_login = u ∧ rec.user_login ≠ "" ∧ info.ide ≠ "" ∧ tsOf info = some ts) := by
  simp only [procIde, tsSetOf]
  split
  · rename_i hguard
    cases hts : tsOf info with
    | none =>
      simp only []
      constructor
      · exact Or.inl
      · rintro (h | ⟨_, _, _, h⟩)
        · exact h
        · cases h
    | some tsx =>
      simp only []
      rw [mem_tsLookup_updateUserTs]
      constructor
      · rintro (h | ⟨hu, rfl⟩)
        · exact Or.inl h
        · exact Or.inr ⟨hu.symm, hguard.1, hguard.2, rfl⟩
      · rintro (h | ⟨h1, _, _, h4⟩)
        · exact Or.inl h
        · injection h4 with h4
          exact Or.inr ⟨h1.symm, h4.symm⟩
  · rename_i hguard
    rw [not_and_or] at hguard
    constructor
    · exact Or.inl
    · rintro (h | ⟨h1, h2, h3, _⟩)
      · exact h
      · rcases hguard with hg | hg
        · exact absurd h2 hg
        · exact absurd h3 hg

theorem foldIde_interactions (rec : TelemetryRecord) (l : List IdeInfo) :
    ∀ st : JsonState, (l.foldl (procIde rec) st).user_interactions = st.user_interactions := by
  induction l with
  | nil => intro st; rfl
  | cons hd t ih =>
    intro st
    rw [List.foldl_cons, ih, procIde_interactions]

theorem foldIde_tsSet_mem (rec : TelemetryRecord) (l : List IdeInfo) (u ts : String) :
    ∀ st : JsonState, ts ∈ tsSetOf (l.foldl (procIde rec) st) u ↔
      ts ∈ tsSetOf st u ∨
        (rec.user_login = u ∧ rec.user_login ≠ "" ∧
          ∃ info ∈ l, info.ide ≠ "" ∧ tsOf info = some ts) := by
  induction l with
  | nil => intro st; simp
  | cons hd t ih =>
    intro st
    rw [List.foldl_cons, ih, procIde_tsSet_mem]
    constructor
    · rintro ((h | ⟨h1, h2, h3, h4⟩) | ⟨h1, h2, info, hinfo, h3, h4⟩)
      · exact Or.inl h
      · exact Or.inr ⟨h1, h2, hd, List.mem_cons_self _ _, h3, h4⟩
      · exact Or.inr ⟨h1, h2, info, List.mem_cons_of_mem _ hinfo, h3, h4⟩
    · rintro (h | ⟨h1, h2, info, hinfo, h3, h4⟩)
      · exact Or.inl (Or.inl h)
      · rcases List.mem_cons.mp hinfo with rfl | hinfo
        · exact Or.inl (Or.inr ⟨h1, h2, h3, h4⟩)
        · exact Or.inr ⟨h1, h2, info, hinfo, h3, h4⟩

theorem recInteractions_user_timestamps (st : JsonState) (rec : TelemetryRecord) :
    (recInteractions st rec).user_timestamps = st.user_timestamps := by
  unfold recInteractions
  split <;> rfl

theorem recWindow_user_timestamps (st : JsonState) (rec : TelemetryRecord) :
    (recWindow st rec).user_timestamps = st.user_timestamps := by
  unfold recWindow
  split <;> rfl

theorem recWindow_interactions (st : JsonState) (rec : TelemetryRecord) :
    (recWindow st rec).user_interactions = st.user_interactions := by
  unfold recWindow
  split <;> rfl

theorem recInteractions_at (st : JsonState) (rec : TelemetryRecord) (u : String) :
    (recInteractions st rec).user_interactions u
      = st.user_interactions u + interactionContrib u rec := by
  unfold recInteractions interactionContrib
  split
  · rename_i hguard
    by_cases hu : rec.user_login = u
    · simp only [hu, if_pos rfl]
      rw [if_pos (show True ∧ u ≠ "" ∧ rec.interaction_count ≠ 0 from
        ⟨trivial, (by rw [← hu]; exact hguard.1), hguard.2⟩)]
      rw [if_pos trivial]
    · simp only [if_neg (fun h : u = rec.user_login => hu h.symm)]
      rw [if_neg (fun h : rec.user_login = u ∧ rec.user_login ≠ "" ∧ rec.interaction_count ≠ 0 =>
        hu h.1)]
      exact (Nat.add_zero _).symm
  · rename_i hguard
    rw [not_and_or] at hguard
    rw [if_neg (fun hcond : rec.user_login = u ∧ rec.user_login ≠ "" ∧ rec.interaction_count ≠ 0 => by
      rcases hcond with ⟨_, h2, h3⟩
      rcases hguard with hg | hg
      · exact hg h2
      · exact hg h3)]
    exact (Nat.add_zero _).symm

theorem procRecord_interactions (st : JsonState) (rec : TelemetryRecord) (u : String) :
    (procRecord st rec).user_interactions u
      = st.user_interactions u + interactionContrib u rec := by
  unfold procRecord
  split
  · rw [show ({ recWindow (recInteractions st rec) rec with
        rows := (recWindow (recInteractions st rec) rec).rows ++
          [⟨rec.report_start_day, rec.report_end_day, rec.day, rec.user_login,
            "", "", "", ""⟩] } : JsonState).user_interactions
        = (recWindow (recInteractions st rec) rec).user_interactions from rfl,
      recWindow_interactions, recInteractions_at]
  · rw [foldIde_interactions, recWindow_interactions, recInteractions_at]

theorem procRecord_tsSet_mem (st : JsonState) (rec : TelemetryRecord) (u ts : String) :
    ts ∈ tsSetOf (procRecord st rec) u ↔ ts ∈ tsSetOf st u ∨ recordAddsTs rec u ts := by
  unfold recordAddsTs
  unfold procRecord
  split
  · rename_i hemp
    rw [show tsSetOf ({ recWindow (recInteractions st rec) rec with
        rows := (recWindow (recInteractions st rec) rec).rows ++
          [⟨rec.report_start_day, rec.report_end_day, rec.day, rec.user_login,
            "", "", "", ""⟩] } : JsonState) u
        = tsLookup (recWindow (recInteractions st rec) rec).user_timestamps u from rfl,
      recWindow_user_timestamps, recInteractions_user_timestamps]
    rw [show tsLookup st.user_timestamps u = tsSetOf st u from rfl]
    rw [List.isEmpty_iff] at hemp
    simp [hemp]
  · rw [foldIde_tsSet_mem]
    rw [show tsSetOf (recWindow (recInteractions st rec) rec) u
        = tsLookup (recWindow (recInteractions st rec) rec).user_timestamps u from rfl,
      recWindow_user_timestamps, recInteractions_user_timestamps]
    rw [show tsLookup st.user_timestamps u = tsSetOf st u from rfl]

theorem foldRecords_tsSet_mem (recs : List TelemetryRecord) (u ts : String) :
    ∀ st, ts ∈ tsSetOf (recs.foldl procRecord st) u ↔
      ts ∈ tsSetOf st u ∨ ∃ rec ∈ recs, recordAddsTs rec u ts := by
  induction recs with
  | nil => intro st; simp
  | cons hd t ih =>
    intro st
    rw [List.foldl_cons, ih, procRecord_tsSet_mem]
    constructor
    · rintro ((h | h) | ⟨rec, hr, ha⟩)
      · exact Or.inl h
      · exact Or.inr ⟨hd, List.mem_cons_self _ _, h⟩
      · exact Or.inr ⟨rec, List.mem_cons_of_mem _ hr, ha⟩
    · rintro (h | ⟨rec, hr, ha⟩)
      · exact Or.inl (Or.inl h)
      · rcases List.mem_cons.mp hr with rfl | hr
        · exact Or.inl (Or.inr ha)
        · exact Or.inr ⟨rec, hr, ha⟩

theorem foldRecords_interactions (recs : List TelemetryRecord) (u : String) :
    ∀ st, (recs.foldl procRecord st).user_interactions u
      = st.user_interactions u + (recs.map (interactionContrib u)).sum := by
  induction recs with
  | nil => intro st; simp
  | cons hd t ih =>
    intro st
    rw [List.foldl_cons, ih, procRecord_interactions, List.map_cons, List.sum_cons,
      Nat.add_assoc]

theorem parse_json_files_tsSet_mem (recs : List TelemetryRecord) (u ts : String) :
    ts ∈ tsSetOf (parse_json_files recs) u ↔ ∃ rec ∈ recs, recordAddsTs rec u ts := by
  unfold parse_json_files
  rw [foldRecords_tsSet_mem]
  have : tsSetOf initJsonState u = [] := rfl
  rw [this]
  simp

theorem parse_json_files_interactions (recs : List TelemetryRecord) (u : String) :
    (parse_json_files recs).user_interactions u = (recs.map (interactionContrib u)).sum := by
  unfold parse_json_files
  rw [foldRecords_interactions]
  exact Nat.zero_add _

/-- C8 amended: under any permutation of the telemetry records, the
per-user timestamp sets (as sets) and the per-user interaction totals
built by parse_json_files are identical; the timestamp-to-client-string
mapping, however, is last-write-wins and can differ (see the
counterexample). -/
theorem telemetry_index_perm_invariant (l1 l2 : List TelemetryRecord) (hp : l1.Perm l2) :
    (∀ u ts, ts ∈ tsSetOf (parse_json_files l1) u ↔ ts ∈ tsSetOf (parse_json_files l2) u) ∧
    (∀ u, (parse_json_files l1).user_interactions u
        = (parse_json_files l2).user_interactions u) := by
  constructor
  · intro u ts
    rw [parse_json_files_tsSet_mem, parse_json_files_tsSet_mem]
    constructor
    · rintro ⟨rec, hr, ha⟩
      exact ⟨rec, hp.mem_iff.mp hr, ha⟩
    · rintro ⟨rec, hr, ha⟩
      exact ⟨rec, hp.mem_iff.mpr hr, ha⟩
  · intro u
    rw [parse_json_files_interactions, parse_json_files_interactions]
    exact List.Perm.sum_eq (hp.map _)


/-- C8 counterexample: two records for the same user carrying the same
sampled timestamp but different IDE identities: permuting them changes
the timestamp-to-IDE mapping (last write wins), so the full claim that
the index is order-independent fails. -/
theorem timestamp_to_ide_order_dependent_counterexample :
    List.Perm
      [(⟨"2025-01-01", "2025-01-31", "2025-01-01", "u", 3,
          [⟨"VSCode", "1.0", "2025-01-01T00:00:00Z", "copilot", "0.1", ""⟩]⟩ : TelemetryRecord),
       ⟨"2025-01-01", "2025-01-31", "2025-01-01", "u", 5,
          [⟨"Other", "2.0", "2025-01-01T00:00:00Z", "copilot", "0.2", ""⟩]⟩]
      [⟨"2025-01-01", "2025-01-31", "2025-01-01", "u", 5,
          [⟨"Other", "2.0", "2025-01-01T00:00:00Z", "copilot", "0.2", ""⟩]⟩,
       ⟨"2025-01-01", "2025-01-31", "2025-01-01", "u", 3,
          [⟨"VSCode", "1.0", "2025-01-01T00:00:00Z", "copilot", "0.1", ""⟩]⟩] ∧
    tsIdeOf (parse_json_files
        [⟨"2025-01-01", "2025-01-31", "2025-01-01", "u", 3,
            [⟨"VSCode", "1.0", "2025-01-01T00:00:00Z", "copilot", "0.1", ""⟩]⟩,
         ⟨"2025-01-01", "2025-01-31", "2025-01-01", "u", 5,
            [⟨"Other", "2.0", "2025-01-01T00:00:00Z", "copilot", "0.2", ""⟩]⟩])
        "u" "2025-01-01T00:00:00Z"
      ≠ tsIdeOf (parse_json_files
        [⟨"2025-01-01", "2025-01-31", "2025-01-01", "u", 5,
            [⟨"Other", "2.0", "2025-01-01T00:00:00Z", "copilot", "0.2", ""⟩]⟩,
         ⟨"2025-01-01", "2025-01-31", "2025-01-01", "u", 3,
            [⟨"VSCode", "1.0", "2025-01-01T00:00:00Z", "copilot", "0.1", ""⟩]⟩])
        "u" "2025-01-01T00:00:00Z" :=
  ⟨List.Perm.swap _ _ _, by decide⟩

/-- Witness instantiating the amended C8 theorem on a two-record swap. -/
theorem telemetry_index_perm_invariant_witness :
    (∀ u ts, ts ∈ tsSetOf (parse_json_files
        [(⟨"2025-01-01", "2025-01-31", "2025-01-01", "u", 3,
            [⟨"VSCode", "1.0", "2025-01-01T00:00:00Z", "copilot", "0.1", ""⟩]⟩ : TelemetryRecord),
         ⟨"2025-01-01", "2025-01-31", "2025-01-01", "u", 5,
            [⟨"Other", "2.0", "2025-01-01T00:00:00Z", "copilot", "0.2", ""⟩]⟩]) u ↔
      ts ∈ tsSetOf (parse_json_files
        [⟨"2025-01-01", "2025-01-31", "2025-01-01", "u", 5,
            [⟨"Other", "2.0", "2025-01-01T00:00:00Z", "copilot", "0.2", ""⟩]⟩,
         ⟨"2025-01-01", "2025-01-31", "2025-01-01", "u", 3,
            [⟨"VSCode", "1.0", "2025-01-01T00:00:00Z", "copilot", "0.1", ""⟩]⟩]) u) ∧
    (∀ u, (parse_json_files
        [(⟨"2025-01-01", "2025-01-31", "2025-01-01", "u", 3,
            [⟨"VSCode", "1.0", "2025-01-01T00:00:00Z", "copilot", "0.1", ""⟩]⟩ : TelemetryRecord),
         ⟨"2025-01-01", "2025-01-31", "2025-01-01", "u", 5,
            [⟨"Other", "2.0", "2025-01-01T00:00:00Z", "copilot", "0.2", ""⟩]⟩]).user_interactions u
      = (parse_json_files
        [⟨"2025-01-01", "2025-01-31", "2025-01-01", "u", 5,
            [⟨"Other", "2.0", "2025-01-01T00:00:00Z", "copilot", "0.2", ""⟩]⟩,
         ⟨"2025-01-01", "2025-01-31", "2025-01-01", "u", 3,
            [⟨"VSCode", "1.0", "2025-01-01T00:00:00Z", "copilot", "0.1", ""⟩]⟩]).user_interactions u) :=
  telemetry_index_perm_invariant _ _ (List.Perm.swap _ _ _)


theorem assocLookup_mem {α β : Type} [DecidableEq α] (k : α) (v : β) :
    ∀ l : List (α × β), assocLookup k l = some v → (k, v) ∈ l := by
  intro l
  induction l with
  | nil => intro h; cases h
  | cons hd t ih =>
    obtain ⟨a, b⟩ := hd
    intro h
    unfold assocLookup at h
    split at h
    · injection h with h
      rename_i hk
      subst hk
      subst h
      exact List.mem_cons_self _ _
    · exact List.mem_cons_of_mem _ (ih h)

theorem lowerChar_idem (c : Char) : lowerChar (lowerChar c) = lowerChar c := by
  unfold lowerChar
  cases h : assocLookup c LOWER_MAP with
  | none => simp [h]
  | some v =>
    have hv : ∀ p ∈ LOWER_MAP, assocLookup p.2 LOWER_MAP = none := by decide
    have := hv _ (assocLookup_mem c v LOWER_MAP h)
    simp [this]

theorem lowerChar_ne_slash (c : Char) (h : c ≠ '/') : lowerChar c ≠ '/' := by
  unfold lowerChar
  cases hl : assocLookup c LOWER_MAP with
  | none => simpa using h
  | some v =>
    have hv : ∀ p ∈ LOWER_MAP, p.2 ≠ '/' := by decide
    have := hv _ (assocLookup_mem c v LOWER_MAP hl)
    simpa using this

theorem lowerList_idem (l : List Char) : lowerList (lowerList l) = lowerList l := by
  unfold lowerList
  rw [List.map_map]
  apply List.map_congr_left
  intro c _
  exact lowerChar_idem c

theorem lowerList_no_slash (l : List Char) (h : '/' ∉ l) : '/' ∉ lowerList l := by
  unfold lowerList
  intro hc
  rcases List.mem_map.mp hc with ⟨c, hcmem, hceq⟩
  exact lowerChar_ne_slash c (fun he => h (he ▸ hcmem)) hceq

theorem splitOnCharAux_ne_nil (c : Char) (l acc : List Char) : splitOnCharAux c l acc ≠ [] := by
  induction l generalizing acc with
  | nil => simp [splitOnCharAux]
  | cons x xs ih =>
    unfold splitOnCharAux
    split
    · simp
    · exact ih _

theorem splitOnCharAux_chunks_no_c (c : Char) (l : List Char) :
    ∀ acc, c ∉ acc → ∀ ch ∈ splitOnCharAux c l acc, c ∉ ch := by
  induction l with
  | nil =>
    intro acc hacc ch hch
    unfold splitOnCharAux at hch
    rcases List.mem_singleton.mp hch with rfl
    simpa using hacc
  | cons x xs ih =>
    intro acc hacc ch hch
    unfold splitOnCharAux at hch
    split at hch
    · rcases List.mem_cons.mp hch with rfl | hch
      · simpa using hacc
      · exact ih [] (by simp) ch hch
    · rename_i hx
      refine ih (x :: acc) ?_ ch hch
      intro hmem
      rcases List.mem_cons.mp hmem with rfl | hmem
      · exact hx rfl
      · exact hacc hmem

theorem splitOnChar_chunks_no_c (c : Char) (l : List Char) :
    ∀ ch ∈ splitOnChar c l, c ∉ ch :=
  splitOnCharAux_chunks_no_c c l [] (by simp)

theorem splitOnCharAux_chunk (c : Char) (ch : List Char) (h : c ∉ ch) :
    ∀ (rest acc : List Char),
      splitOnCharAux c (ch ++ rest) acc = splitOnCharAux c rest (ch.reverse ++ acc) := by
  induction ch with
  | nil => intro rest acc; simp
  | cons x xs ih =>
    intro rest acc
    have hx : x ≠ c := fun he => h (he ▸ List.mem_cons_self _ _)
    have hxs : c ∉ xs := fun hm => h (List.mem_cons_of_mem _ hm)
    rw [List.cons_append]
    conv_lhs => unfold splitOnCharAux
    rw [if_neg hx, ih hxs rest (x :: acc),
      show (x :: xs).reverse ++ acc = xs.reverse ++ (x :: acc) from by
        rw [List.reverse_cons, List.append_assoc]; rfl]

theorem split_join (c : Char) (L : List (List Char)) (hne : L ≠ [])
    (hno : ∀ ch ∈ L, c ∉ ch) : splitOnChar c (joinWith c L) = L := by
  induction L with
  | nil => exact absurd rfl hne
  | cons ch t ih =>
    cases t with
    | nil =>
      show splitOnCharAux c (joinWith c [ch]) [] = [ch]
      rw [show joinWith c [ch] = ch from rfl,
        show ch = ch ++ ([] : List Char) from (List.append_nil ch).symm,
        splitOnCharAux_chunk c ch (by
          intro hm
          exact hno ch (List.mem_singleton.mpr rfl) hm) [] []]
      unfold splitOnCharAux
      simp
    | cons ch2 t2 =>
      show splitOnCharAux c (joinWith c (ch :: ch2 :: t2)) [] = ch :: ch2 :: t2
      rw [show joinWith c (ch :: ch2 :: t2) = ch ++ c :: joinWith c (ch2 :: t2) from rfl,
        splitOnCharAux_chunk c ch (hno _ (List.mem_cons_self _ _)) _ []]
      unfold splitOnCharAux
      rw [if_pos rfl]
      simp only [List.append_nil, List.reverse_reverse]
      exact congrArg (ch :: ·) (ih (by simp) (fun x hx => hno x (List.mem_cons_of_mem _ hx)))

theorem surface_table_value_fixed (k v : List Char)
    (h : assocLookup k SURFACE_TO_JSON_IDE = some v) :
    lowerList v = v ∧ (assocLookup v SURFACE_TO_JSON_IDE).getD v = v ∧ '/' ∉ v := by
  have hall : ∀ p ∈ SURFACE_TO_JSON_IDE,
      lowerList p.2 = p.2 ∧ (assocLookup p.2 SURFACE_TO_JSON_IDE).getD p.2 = p.2 ∧ '/' ∉ p.2 := by
    decide
  exact hall _ (assocLookup_mem k v _ h)

theorem vscodePattern_keepPart (p : List Char) (h : vscodeVersionPattern p = true) :
    keepPart p = true := by
  unfold vscodeVersionPattern at h
  split at h
  · rename_i rest
    have h1 : lowerList ('0' :: '.' :: rest) ≠ "githubcopilotchat".data := by
      intro he
      have hh := congrArg (fun l : List Char => l.headD ' ') he
      simp only [lowerList, List.map_cons, List.headD_cons] at hh
      exact absurd hh (by decide)
    have h2 : lowerList ('0' :: '.' :: rest) ≠ "githubcopilot".data := by
      intro he
      have hh := congrArg (fun l : List Char => l.headD ' ') he
      simp only [lowerList, List.map_cons, List.headD_cons] at hh
      exact absurd hh (by decide)
    simp [keepPart, h1, h2]
  · cases h

theorem filter_keepPart_idem (l : List (List Char)) :
    (l.filter keepPart).filter keepPart = l.filter keepPart := by
  rw [List.filter_filter]
  congr 1
  funext a
  exact Bool.and_self _

theorem normalizeCore_fix (j : List Char) (kept : List (List Char))
    (hj : '/' ∉ j) (hkept : ∀ ch ∈ kept, '/' ∉ ch)
    (hfilter : kept.filter keepPart = kept)
    (hcase : (kept.any vscodeVersionPattern = true ∧ j = "vscode".data) ∨
             (kept.any vscodeVersionPattern = false ∧ lowerList j = j ∧
               (assocLookup j SURFACE_TO_JSON_IDE).getD j = j)) :
    normalizeCore (joinWith '/' (j :: kept)) = joinWith '/' (j :: kept) := by
  unfold normalizeCore
  dsimp only
  rw [split_join '/' (j :: kept) (by simp) (by
    intro ch hch
    rcases List.mem_cons.mp hch with rfl | hch
    · exact hj
    · exact hkept ch hch)]
  rw [show (j :: kept).headD [] = j from rfl, show (j :: kept).drop 1 = kept from rfl]
  rcases hcase with ⟨hany, hj'⟩ | ⟨hany, hlow, hfix⟩
  · rw [if_pos hany, hfilter, hj']
    rfl
  · rw [if_neg (by simp [hany]), hlow, hfix, hfilter]

theorem normalizeCore_shape (l : List Char) :
    ∃ j kept, normalizeCore l = joinWith '/' (j :: kept) ∧ '/' ∉ j ∧
      (∀ ch ∈ kept, '/' ∉ ch) ∧ kept.filter keepPart = kept ∧
      ((kept.any vscodeVersionPattern = true ∧ j = "vscode".data) ∨
       (kept.any vscodeVersionPattern = false ∧ lowerList j = j ∧
         (assocLookup j SURFACE_TO_JSON_IDE).getD j = j)) := by
  have hchunks : ∀ ch ∈ splitOnChar '/' l, '/' ∉ ch := splitOnChar_chunks_no_c '/' l
  have hkept : ∀ ch ∈ ((splitOnChar '/' l).drop 1).filter keepPart, '/' ∉ ch := by
    intro ch hch
    exact hchunks ch (List.mem_of_mem_drop (List.mem_filter.mp hch).1)
  cases hA : ((splitOnChar '/' l).drop 1).any vscodeVersionPattern with
  | true =>
    refine ⟨"vscode".data, ((splitOnChar '/' l).drop 1).filter keepPart, ?_, by decide,
      hkept, filter_keepPart_idem _, Or.inl ⟨?_, rfl⟩⟩
    · unfold normalizeCore
      dsimp only
      rw [if_pos hA]
      rfl
    · rcases List.any_eq_true.mp hA with ⟨p, hp, hpat⟩
      exact List.any_eq_true.mpr
        ⟨p, List.mem_filter.mpr ⟨hp, vscodePattern_keepPart p hpat⟩, hpat⟩
  | false =>
    have hanyk : (((splitOnChar '/' l).drop 1).filter keepPart).any vscodeVersionPattern = false := by
      rw [List.any_eq_false]
      intro p hp
      have := List.any_eq_false.mp hA p (List.mem_filter.mp hp).1
      simpa using this
    obtain ⟨p0, pt, hparts⟩ := List.exists_cons_of_ne_nil (splitOnCharAux_ne_nil '/' l [])
    have hp0 : '/' ∉ p0 := hchunks p0 (by rw [show splitOnChar '/' l = splitOnCharAux '/' l [] from rfl, hparts]; exact List.mem_cons_self _ _)
    cases hlk : assocLookup (lowerList ((splitOnChar '/' l).headD [])) SURFACE_TO_JSON_IDE with
    | some v =>
      refine ⟨v, ((splitOnChar '/' l).drop 1).filter keepPart, ?_,
        (surface_table_value_fixed _ v hlk).2.2, hkept, filter_keepPart_idem _,
        Or.inr ⟨hanyk, (surface_table_value_fixed _ v hlk).1,
          (surface_table_value_fixed _ v hlk).2.1⟩⟩
      unfold normalizeCore
      dsimp only
      rw [if_neg (by rw [hA]; simp), hlk]
      rfl
    | none =>
      refine ⟨lowerList ((splitOnChar '/' l).headD []),
        ((splitOnChar '/' l).drop 1).filter keepPart, ?_, ?_, hkept, filter_keepPart_idem _,
        Or.inr ⟨hanyk, lowerList_idem _, ?_⟩⟩
      · unfold normalizeCore
        dsimp only
        rw [if_neg (by rw [hA]; simp), hlk]
        rfl
      · apply lowerList_no_slash
        rw [show splitOnChar '/' l = splitOnCharAux '/' l [] from rfl, hparts]
        exact hp0
      · rw [hlk]
        rfl

theorem normalizeCore_idem (l : List Char) :
    normalizeCore (normalizeCore l) = normalizeCore l := by
  obtain ⟨j, kept, hout, hj, hkept, hfilter, hcase⟩ := normalizeCore_shape l
  rw [hout]
  exact normalizeCore_fix j kept hj hkept hfilter hcase

/-- C5 amended: surface normalization is idempotent except on strings
whose normal form is the empty string (first segment empty and every
later segment a GitHubCopilotChat marker): for every surface whose
normalization is not the empty string, renormalizing is a no-op; see
the counterexample for the exceptional case, where renormalizing the
empty normal form yields the unparseable sentinel instead. -/
theorem normalize_idempotent_amended (s : String)
    (h : normalize_surface_to_json_format s ≠ some "") :
    (normalize_surface_to_json_format s).bind normalize_surface_to_json_format
      = normalize_surface_to_json_format s := by
  by_cases hs : s = ""
  · rw [hs]
    rfl
  · have hval : normalize_surface_to_json_format s
        = some (String.mk (normalizeCore s.data)) := by
      unfold normalize_surface_to_json_format
      rw [if_neg hs]
    rw [hval, Option.some_bind]
    have hcore : normalizeCore s.data ≠ [] := by
      intro hc
      apply h
      rw [hval, hc]
    unfold normalize_surface_to_json_format
    rw [if_neg (show ¬ (String.mk (normalizeCore s.data) = "") from fun he => hcore (by
      have hd := congrArg String.data he
      simpa using hd))]
    rw [show (String.mk (normalizeCore s.data)).data = normalizeCore s.data from rfl]
    rw [normalizeCore_idem]


/-- C5 counterexample: normalizing /GitHubCopilotChat gives the empty
string, and normalizing the empty string gives None, so
normalize(normalize(x)) differs from normalize(x) at this input. -/
theorem normalize_idempotent_counterexample :
    normalize_surface_to_json_format "/GitHubCopilotChat" = some "" ∧
    (normalize_surface_to_json_format "/GitHubCopilotChat").bind normalize_surface_to_json_format
      = none ∧
    (normalize_surface_to_json_format "/GitHubCopilotChat").bind normalize_surface_to_json_format
      ≠ normalize_surface_to_json_format "/GitHubCopilotChat" := by
  decide

/-- Witness instantiating the amended C5 theorem at a realistic
JetBrains surface string. -/
theorem normalize_idempotent_amended_witness :
    (normalize_surface_to_json_format
        "JetBrains-IU/252.25557.131/copilot-intellij/1.5.57-243").bind
      normalize_surface_to_json_format
      = normalize_surface_to_json_format
          "JetBrains-IU/252.25557.131/copilot-intellij/1.5.57-243" :=
  normalize_idempotent_amended "JetBrains-IU/252.25557.131/copilot-intellij/1.5.57-243"
    (by decide)
